import Mathlib

/-!
Verification of the traycer-lite plan-generation core.

Shallow embedding of the TypeScript sources:
  * `src/types/index.ts`        — data model
  * `src/core/PlanGenerator.ts` — prompt building, markdown export,
     normalisation and deterministic fallback synthesis
  * `src/services/LLMService.ts` — provider dispatch, heuristic plan and the
     code-fence stripping / JSON recovery applied to Gemini responses
  * `src/ui/SidebarProvider.ts` — chat routing, plan modification flow

Conventions of the embedding:
  * Machine-level JS values parsed from JSON are modelled by `Raw*` structures
    whose scalar fields are `Option`-typed (a missing/undefined field is
    `none`); fields sitting in array position (`phases`, `steps`) use
    `JsArrayVal`, which also represents `null` elements and non-array values
    on which the source's repair code throws a TypeError.  Fallible
    operations are `Except String`-valued; `Except.error` models a thrown
    exception.
  * `JSON.parse` is an external platform primitive; it is modelled by a
    universally quantified parameter `parse : String → Option JsValue`
    (`none` = the parse threw).  `JsValue.nonObject` collapses every JSON value
    that is not an object, since the code rejects those uniformly.
  * `randomUUID()` is an external fresh-id source; it is modelled by a
    quantified parameter `uuid : List Nat → String` applied at the (phase
    index, step index) call path, so distinct call sites may receive distinct
    values.
  * `new Date().toISOString()` is modelled by a quantified parameter
    `now : String` (one invocation time per request).
-/

deriving instance DecidableEq for Except

namespace TraycerLite

/-! ## Data model (`src/types/index.ts`)

`PlanMode = 'plan' | 'phase'` is modelled as `String` because the normaliser
can propagate arbitrary parsed strings into the `mode` field at runtime
(`plan.mode as PlanMode` is an unchecked cast in TypeScript). -/

structure PlanRequest where
  task : String
  mode : String
  hints : Option (List String) := none
  deriving Repr, DecidableEq

structure ScannedFile where
  path : String
  language : String
  size : Nat
  deriving Repr, DecidableEq

structure ProjectContext where
  rootPath : String
  files : List ScannedFile
  techStack : List String
  summary : String
  deriving Repr, DecidableEq

structure PlanStep where
  id : String
  title : String
  description : String
  references : List String
  reasoning : Option String := none
  estimatedEffort : Option String := none
  deriving Repr, DecidableEq

structure PlanPhase where
  id : String
  title : String
  summary : String
  steps : List PlanStep
  deriving Repr, DecidableEq

structure PlanResult where
  task : String
  mode : String
  summary : String
  generatedAt : String
  phases : List PlanPhase
  rawPlan : Option String := none
  deriving Repr, DecidableEq

inductive LLMProvider where
  | openai | anthropic | gemini | mock
  deriving Repr, DecidableEq

/-- Embedding of `LLMConfig` restricted to the fields the embedded operations read
(`provider`, `apiKey`); `model`/`temperature`/`maxTokens`/`baseUrl` are only
forwarded to external SDK calls and are not modelled. -/
structure LLMConfig where
  provider : LLMProvider
  apiKey : Option String := none
  deriving Repr, DecidableEq

/-! ## JavaScript value helpers -/

/-- JS truthiness of an optional string: `undefined`, `null` and `""` are
falsy, every other string is truthy. -/
def truthy : Option String → Bool
  | none => false
  | some s => s ≠ ""

/-- JS `x || d` for an optional string field `x` with default `d`. -/
def orElseStr (x : Option String) (d : String) : String :=
  match x with
  | none => d
  | some s => if s = "" then d else s

/-- JS `Array.prototype.slice(start, stop)` for `0 ≤ start ≤ stop`. -/
def jsSlice (l : List α) (start stop : Nat) : List α :=
  (l.drop start).take (stop - start)

/-! ## Raw parsed-JSON views

What `JSON.parse` can hand to the repair code, seen through the fields the
code actually accesses.  Scalar string fields are `Option String` (`none` =
missing/undefined).  Array-position fields (`phases`, the `steps` of a
phase) must distinguish more shapes, because the source is not defensive
there: a `null` array element makes `phase.id`/`step.id` throw, and a
truthy non-array `steps` survives `?? []` and then makes `.map` throw. -/

/-- The shape classes of a JSON value sitting where the code expects an
array.  `nullish` is `null`/`undefined` (defaulted by `??`, falsy for `!`);
`falsyScalar` is a falsy non-nullish scalar (`0`, `""`, `false`: falsy for
`!`, but kept by `??` so a subsequent `.map` throws); `nonArray` is any
truthy non-array value (kept by both, `.map` throws).  `lengthVal` records
what the value's `length` property yields where the code reads it: `some n`
for strings, `none` (i.e. `undefined`) for numbers/booleans/plain
objects. -/
inductive JsArrayVal (α : Type) where
  | nullish
  | falsyScalar (lengthVal : Option Nat)
  | array (l : List α)
  | nonArray (lengthVal : Option Nat)
  deriving Repr, DecidableEq

/-- A step object viewed through its accessed fields.  `references` is kept
as `Option (List String)` because the source stores `step.references ?? []`
without ever calling a method on it inside the repair code, so a wrong-shape
value cannot alter any control path there. -/
structure RawStep where
  id : Option String := none
  title : Option String := none
  description : Option String := none
  references : Option (List String) := none
  reasoning : Option String := none
  estimatedEffort : Option String := none
  deriving Repr, DecidableEq

/-- An element of a parsed `steps` array: a non-nullish value viewed through
its accessed fields (a scalar or array element behaves as the all-missing
object, since property access on it yields `undefined`), or `null`, on which
`step.id` throws. -/
inductive JsStepVal where
  | obj (s : RawStep)
  | nullish
  deriving Repr, DecidableEq

structure RawPhase where
  id : Option String := none
  title : Option String := none
  summary : Option String := none
  steps : JsArrayVal JsStepVal := JsArrayVal.nullish
  deriving Repr, DecidableEq

/-- An element of a parsed `phases` array: a non-nullish value viewed
through its accessed fields, or `null`, on which `phase.id` throws. -/
inductive JsPhaseVal where
  | obj (p : RawPhase)
  | nullish
  deriving Repr, DecidableEq

structure RawPlan where
  task : Option String := none
  mode : Option String := none
  summary : Option String := none
  generatedAt : Option String := none
  phases : JsArrayVal JsPhaseVal := JsArrayVal.nullish
  rawPlan : Option String := none
  deriving Repr, DecidableEq

/-- A JSON value as the code observes it.  `object` is a non-null object
viewed through its accessed fields; `scalar` covers numbers, strings,
booleans and arrays (property access yields `undefined`, but the
`typeof parsed === 'object' && Array.isArray(parsed.phases)` guard of
`tryParsePlan` rejects them); `null` is JSON `null` (rejected by the
`parsed &&` guard, and property access on it throws). -/
inductive JsValue where
  | object (plan : RawPlan)
  | scalar
  | null
  deriving Repr, DecidableEq

/-- A well-formed `PlanStep` as it re-enters the system after a JSON
round-trip: every field present. -/
def rawOfStep (s : PlanStep) : JsStepVal :=
  JsStepVal.obj
    { id := some s.id
      title := some s.title
      description := some s.description
      references := some s.references
      reasoning := s.reasoning
      estimatedEffort := s.estimatedEffort }

/-- A well-formed `PlanPhase` viewed as a parsed JSON object. -/
def rawOfPhase (ph : PlanPhase) : JsPhaseVal :=
  JsPhaseVal.obj
    { id := some ph.id
      title := some ph.title
      summary := some ph.summary
      steps := JsArrayVal.array (ph.steps.map rawOfStep) }

/-- A well-formed `PlanResult` viewed as a parsed JSON object. -/
def rawOfPlan (p : PlanResult) : RawPlan :=
  { task := some p.task
    mode := some p.mode
    summary := some p.summary
    generatedAt := some p.generatedAt
    phases := JsArrayVal.array (p.phases.map rawOfPhase)
    rawPlan := p.rawPlan }

/-! ## `PlanGenerator.buildPlanPrompt` (`src/core/PlanGenerator.ts:23-77`)

The template literal is split at the embedded `new Date().toISOString()`
interpolation into a clock-independent head and tail; the full prompt is
their concatenation around the clock value. -/

/-- Models `request.task.replace(/"/g, '\\"')` — escape double quotes for JSON. -/
def escapeTaskQuotes (s : String) : String :=
  String.mk ((s.toList.map fun c => if c = '"' then ['\\', '"'] else [c]).flatten)

/-- One line of the "Relevant Files" listing: `- ${f.path} (${f.language})`. -/
def fileLine (f : ScannedFile) : String :=
  "- " ++ f.path ++ " (" ++ f.language ++ ")"

/-- The prompt text preceding the `generatedAt` timestamp interpolation. -/
def promptBeforeTime (request : PlanRequest) (context : ProjectContext)
    (files : List ScannedFile) : String :=
  "You are Traycer, an expert software planning assistant. Generate a detailed implementation plan for the following task.\n\n" ++
  "Task: " ++ request.task ++ "\n\n" ++
  "Project Context:\n" ++ context.summary ++ "\n\n" ++
  "Technology Stack:\n" ++ String.intercalate ", " context.techStack ++ "\n\n" ++
  "Relevant Files:\n" ++ String.intercalate "\n" (files.map fileLine) ++ "\n\n" ++
  "CRITICAL: You must respond with ONLY valid JSON. No explanations, no markdown, no code blocks.\n\n" ++
  "Generate a plan using this exact JSON structure:\n" ++
  "\x7b\n    \"task\": \"" ++ escapeTaskQuotes request.task ++ "\",\n" ++
  "    \"mode\": \"" ++ request.mode ++ "\",\n" ++
  "    \"summary\": \"Brief overview of the approach (2-3 sentences)\",\n" ++
  "    \"generatedAt\": \""

/-- The prompt text following the `generatedAt` timestamp interpolation. -/
def promptAfterTime : String :=
  "\",\n    \"phases\": [\n        \x7b\n            \"id\": \"phase-analysis\",\n" ++
  "            \"title\": \"Analysis Phase\",\n" ++
  "            \"summary\": \"What will be analyzed and why\",\n" ++
  "            \"steps\": [\n                \x7b\n" ++
  "                    \"id\": \"step-1\",\n" ++
  "                    \"title\": \"Step Title\",\n" ++
  "                    \"description\": \"Detailed step description\",\n" ++
  "                    \"references\": [\"file/paths/involved\"],\n" ++
  "                    \"reasoning\": \"Why this step is necessary\",\n" ++
  "                    \"estimatedEffort\": \"Low\"\n" ++
  "                \x7d\n            ]\n        \x7d\n    ]\n\x7d\n\n" ++
  "Requirements:\n" ++
  "1. Include at least 3 phases: Analysis, Implementation, and Validation\n" ++
  "2. Each phase should have 2-4 steps\n" ++
  "3. Reference actual files from the workspace in the \"references\" array\n" ++
  "4. Provide clear reasoning for each step\n" ++
  "5. Use proper JSON string escaping (escape quotes and newlines)\n" ++
  "6. estimatedEffort must be one of: \"Low\", \"Medium\", \"High\"\n" ++
  "7. keep each point small. Do not write large paragraphs.\n\n" ++
  "IMPORTANT: Return ONLY the JSON object. Do not wrap it in markdown code blocks or include any other text."

/-- Embedding of `buildPlanPrompt(request, context, files)`; `now` models the
`new Date().toISOString()` evaluated inside the template. -/
def buildPlanPrompt (request : PlanRequest) (context : ProjectContext)
    (files : List ScannedFile) (now : String) : String :=
  promptBeforeTime request context files ++ now ++ promptAfterTime

/-! ## `PlanGenerator.toMarkdown` (`src/core/PlanGenerator.ts:79-106`) -/

/-- The markdown fragment appended for one step. -/
def stepMarkdown (step : PlanStep) : String :=
  "### " ++ step.title ++ "\n" ++
  step.description ++ "\n\n" ++
  (if step.references.length > 0 then
    "References:\n" ++ String.intercalate "\n" (step.references.map fun ref => "- " ++ ref) ++ "\n\n"
  else "") ++
  (match step.reasoning with
   | some r => if r = "" then "" else "Reasoning: " ++ r ++ "\n\n"
   | none => "")

/-- The markdown fragment appended for one phase. -/
def phaseMarkdown (phase : PlanPhase) : String :=
  "## " ++ phase.title ++ "\n" ++ phase.summary ++ "\n\n" ++
  (if phase.steps.length > 0 then String.join (phase.steps.map stepMarkdown) else "")

/-- Embedding of `toMarkdown(plan)` — the canonical markdown rendering. -/
def toMarkdown (plan : PlanResult) : String :=
  "# Implementation Plan: " ++ plan.task ++ "\n\n" ++
  (if plan.summary ≠ "" then "## Overview\n" ++ plan.summary ++ "\n\n" else "") ++
  String.join (plan.phases.map phaseMarkdown)

/-! ## `PlanGenerator.ensurePhaseStructure` (`src/core/PlanGenerator.ts:148-162`)

The repair is partial in the source: a `null` element throws a TypeError at
`phase.id`/`step.id`, and a truthy non-array `steps` value survives
`phase.steps ?? []` and then makes `.map` throw.  The embedding therefore
returns `Except String _`, with `Except.error` modelling the thrown
TypeError (its message text summarises the JS error). -/

/-- Structural repair of one step; `uuid [i, j]` models the `randomUUID()`
call made for a missing id of step `j` inside phase `i`.  A `null` element
throws at `step.id`. -/
def ensureStepStructure (uuid : List Nat → String) (i j : Nat) :
    JsStepVal → Except String PlanStep
  | JsStepVal.nullish => Except.error "Cannot read properties of null (reading 'id')"
  | JsStepVal.obj step =>
    Except.ok
      { id := step.id.getD (uuid [i, j])
        title := step.title.getD "Untitled Step"
        description := step.description.getD ""
        references := step.references.getD []
        reasoning := step.reasoning
        estimatedEffort := step.estimatedEffort }

/-- The `(phase.steps ?? []).map(step => ...)` loop of phase `i`, starting
at step index `j`: left-to-right, stopping at the first throwing element,
exactly as `Array.prototype.map` does. -/
def ensureSteps (uuid : List Nat → String) (i : Nat) : Nat → List JsStepVal →
    Except String (List PlanStep)
  | _, [] => Except.ok []
  | j, s :: rest =>
    match ensureStepStructure uuid i j s with
    | Except.error e => Except.error e
    | Except.ok s' =>
      match ensureSteps uuid i (j + 1) rest with
      | Except.error e => Except.error e
      | Except.ok rest' => Except.ok (s' :: rest')

/-- Structural repair of one phase; `uuid [i]` models the `randomUUID()`
call made for a missing id of phase `i`.  A `null` element throws at
`phase.id`; a non-nullish non-array `steps` value is kept by `??` and then
makes `.map` throw. -/
def ensurePhaseStructure (uuid : List Nat → String) (i : Nat) :
    JsPhaseVal → Except String PlanPhase
  | JsPhaseVal.nullish => Except.error "Cannot read properties of null (reading 'id')"
  | JsPhaseVal.obj phase =>
    match (match phase.steps with
      | JsArrayVal.nullish => Except.ok []
      | JsArrayVal.array l => ensureSteps uuid i 0 l
      | JsArrayVal.falsyScalar _ => Except.error "phase.steps.map is not a function"
      | JsArrayVal.nonArray _ => Except.error "phase.steps.map is not a function") with
    | Except.error e => Except.error e
    | Except.ok steps =>
      Except.ok
        { id := phase.id.getD (uuid [i])
          title := phase.title.getD "Untitled Phase"
          summary := phase.summary.getD ""
          steps := steps }

/-- The `plan.phases.map(this.ensurePhaseStructure)` loop, starting at phase
index `i`. -/
def ensurePhases (uuid : List Nat → String) : Nat → List JsPhaseVal →
    Except String (List PlanPhase)
  | _, [] => Except.ok []
  | i, ph :: rest =>
    match ensurePhaseStructure uuid i ph with
    | Except.error e => Except.error e
    | Except.ok ph' =>
      match ensurePhases uuid (i + 1) rest with
      | Except.error e => Except.error e
      | Except.ok rest' => Except.ok (ph' :: rest')

/-! ## Deterministic fallback synthesis (`src/core/PlanGenerator.ts:164-255`) -/

/-- Embedding of `createSinglePhase(files)` — the single-phase fallback phase. -/
def createSinglePhase (files : List ScannedFile) : PlanPhase :=
  { id := "phase-1"
    title := "Implementation"
    summary := "Execute the task with focused steps covering analysis, implementation, and validation."
    steps :=
      (files.enum.map fun fi =>
        { id := "step-" ++ toString (fi.1 + 1)
          title := "Review " ++ fi.2.path
          description := "Inspect " ++ fi.2.path ++ " (" ++ fi.2.language ++ ") for necessary updates related to the task."
          references := [fi.2.path]
          reasoning := some "Prioritise high-signal files derived from workspace scan."
          estimatedEffort := none }) ++
      [{ id := "step-testing"
         title := "Validate changes"
         description := "Run existing tests and linting to ensure the implementation is stable."
         references := ["package.json"]
         reasoning := some "Guarantees the task outcome meets project quality standards."
         estimatedEffort := none }] }

/-- Models `files.slice(0, Math.max(2, Math.ceil(files.length / 3)))`. -/
def analysisFiles (files : List ScannedFile) : List ScannedFile :=
  jsSlice files 0 (max 2 ((files.length + 2) / 3))

/-- Models `files.slice(analysisFiles.length, analysisFiles.length * 2)`. -/
def implementationFiles (files : List ScannedFile) : List ScannedFile :=
  jsSlice files (analysisFiles files).length ((analysisFiles files).length * 2)

/-- Models `files.slice(analysisFiles.length * 2)`. -/
def verificationFiles (files : List ScannedFile) : List ScannedFile :=
  files.drop ((analysisFiles files).length * 2)

/-- Embedding of `createPhasedPlan(files)` — the three-phase fallback structure. -/
def createPhasedPlan (files : List ScannedFile) : List PlanPhase :=
  [ { id := "phase-analysis"
      title := "Analysis & Discovery"
      summary := "Understand current implementation details and dependencies."
      steps := (analysisFiles files).enum.map fun fi =>
        { id := "analysis-" ++ toString (fi.1 + 1)
          title := "Investigate " ++ fi.2.path
          description := "Document the responsibilities of " ++ fi.2.path ++ " and capture edge-cases relevant to the task."
          references := [fi.2.path]
          reasoning := some "Identify scope before editing to avoid regression."
          estimatedEffort := none } },
    { id := "phase-implementation"
      title := "Implementation"
      summary := "Apply code changes guided by findings from the analysis phase."
      steps :=
        ((implementationFiles files).enum.map fun fi =>
          { id := "implementation-" ++ toString (fi.1 + 1)
            title := "Update " ++ fi.2.path
            description := "Perform necessary modifications in " ++ fi.2.path ++ " to address the task requirements."
            references := [fi.2.path]
            reasoning := some "Implement solution incrementally across impacted files."
            estimatedEffort := none }) ++
        [{ id := "implementation-cross-cutting"
           title := "Share learnings across modules"
           description := "Propagate shared updates (types, utilities) discovered during implementation."
           references := []
           reasoning := some "Capture shared follow-up tasks uncovered during implementation."
           estimatedEffort := none }] },
    { id := "phase-validation"
      title := "Validation & Verification"
      summary := "Ensure the solution meets requirements and quality gates."
      steps :=
        ((verificationFiles files).enum.map fun fi =>
          { id := "validation-" ++ toString (fi.1 + 1)
            title := "Review " ++ fi.2.path
            description := "Cross-check " ++ fi.2.path ++ " for alignment with the new implementation plan."
            references := [fi.2.path]
            reasoning := some "Ensure downstream consumers align with the updated behaviour."
            estimatedEffort := none }) ++
        [{ id := "validation-testing"
           title := "Execute test & lint suite"
           description := "Run automated tests, linting, and manual smoke tests as applicable."
           references := ["package.json"]
           reasoning := some "Maintain quality gates to catch regressions early."
           estimatedEffort := none }] } ]

/-- Embedding of `createFallbackPlan(request, context)`; `now` models
`new Date().toISOString()`. -/
def createFallbackPlan (now : String) (request : PlanRequest) (context : ProjectContext) : PlanResult :=
  let files := jsSlice context.files 0 10
  { task := request.task
    mode := request.mode
    summary := context.summary
    generatedAt := now
    phases := if request.mode = "phase" then createPhasedPlan files else [createSinglePhase files]
    rawPlan := none }

/-! ## `PlanGenerator.tryParsePlan` / `normalisePlan`
(`src/core/PlanGenerator.ts:108-146`) -/

/-- Embedding of `tryParsePlan(raw)`: `JSON.parse`, then require an object whose `phases`
field is an array (`Array.isArray(parsed.phases)`).  `parse raw = none`
models a thrown `SyntaxError`. -/
def tryParsePlan (parse : String → Option JsValue) (raw : String) : Option RawPlan :=
  match parse raw with
  | some (JsValue.object p) =>
    match p.phases with
    | JsArrayVal.array _ => some p
    | _ => none
  | _ => none

/-- The body of `normalisePlan` once a plan object is in hand: the
`!plan.phases || plan.phases.length === 0` fallback substitution (a falsy
`phases` or an empty array is replaced by the fallback's phases; a truthy
non-array survives the check and makes `.map` throw), then field-by-field
canonicalisation.  `Except.error` models the TypeError the phase/step
repair can throw out of `normalisePlan`'s boundary. -/
def normaliseParsed (uuid : List Nat → String) (now : String)
    (request : PlanRequest) (context : ProjectContext) (plan : RawPlan) :
    Except String PlanResult :=
  match (match plan.phases with
    | JsArrayVal.nullish =>
      Except.ok ((createFallbackPlan now request context).phases.map rawOfPhase)
    | JsArrayVal.falsyScalar _ =>
      Except.ok ((createFallbackPlan now request context).phases.map rawOfPhase)
    | JsArrayVal.array [] =>
      Except.ok ((createFallbackPlan now request context).phases.map rawOfPhase)
    | JsArrayVal.array ps => Except.ok ps
    | JsArrayVal.nonArray _ => Except.error "plan.phases.map is not a function") with
  | Except.error e => Except.error e
  | Except.ok phases =>
    match ensurePhases uuid 0 phases with
    | Except.error e => Except.error e
    | Except.ok ensured =>
      Except.ok
        { task := orElseStr plan.task request.task
          mode := orElseStr plan.mode request.mode
          summary := orElseStr plan.summary context.summary
          generatedAt := orElseStr plan.generatedAt now
          phases := ensured
          rawPlan := plan.rawPlan }

/-- Embedding of `normalisePlan(response, request, context)` where
`response : PlanResult | string` is modelled as `RawPlan ⊕ String` (a JS
object is always seen through its accessed fields).  An unparseable string
yields the deterministic fallback; a parsed plan goes through
`normaliseParsed`, whose repair can throw. -/
def normalisePlan (parse : String → Option JsValue) (uuid : List Nat → String)
    (now : String) (response : RawPlan ⊕ String)
    (request : PlanRequest) (context : ProjectContext) : Except String PlanResult :=
  match (match response with
    | Sum.inr s => tryParsePlan parse s
    | Sum.inl p => some p) with
  | none => Except.ok (createFallbackPlan now request context)
  | some plan => normaliseParsed uuid now request context plan

/-- Embedding of `PlanGenerator.generatePlan` after the LLM response arrived
(`src/core/PlanGenerator.ts:12-21`): normalise, then
`plan.rawPlan = plan.rawPlan ?? this.toMarkdown(plan)`; a TypeError thrown
by the normaliser propagates to the caller. -/
def generatePlanRun (parse : String → Option JsValue) (uuid : List Nat → String)
    (now : String) (llmResponse : RawPlan ⊕ String)
    (request : PlanRequest) (context : ProjectContext) : Except String PlanResult :=
  (normalisePlan parse uuid now llmResponse request context).map fun plan =>
    { plan with rawPlan := some (plan.rawPlan.getD (toMarkdown plan)) }

/-! ## `LLMService` (`src/services/LLMService.ts`) -/

/-- Escaping applied by `JSON.stringify` to the characters that can occur in
the strings this codebase feeds it (quote, backslash, newline, tab, CR). -/
def jsonEscape (s : String) : String :=
  String.mk ((s.toList.map fun c =>
    if c = '"' then ['\\', '"']
    else if c = '\\' then ['\\', '\\']
    else if c = '\n' then ['\\', 'n']
    else if c = '\t' then ['\\', 't']
    else if c = '\x0d' then ['\\', 'r']
    else [c]).flatten)

/-- Embedding of `heuristicPlan(request, context)` (`LLMService.ts:466-506`): the fixed
one-phase fallback produced when no provider is usable.  `now` models
`new Date().toISOString()`. -/
def heuristicPlan (now : String) (request : PlanRequest) (context : ProjectContext) : PlanResult :=
  { task := request.task
    mode := request.mode
    summary := "Heuristic plan for \"" ++ request.task ++ "\" (provider not configured or LLM failed)."
    generatedAt := now
    phases :=
      [ { id := "fallback-phase"
          title := "Fallback Plan"
          summary := "This is a heuristic plan generated without LLM assistance."
          steps :=
            [ { id := "step-1"
                title := "Analyze project context"
                description := "Review project files under " ++ context.rootPath ++ "."
                references := context.techStack
                reasoning := some "This plan was generated heuristically to provide minimal guidance."
                estimatedEffort := some "Low" },
              { id := "step-2"
                title := "Refine requirements"
                description := "Manually define objectives and constraints for the next planning attempt."
                references := []
                reasoning := none
                estimatedEffort := some "Medium" } ] } ]
    rawPlan := some
      ("\x7b\n  \"note\": \"Fallback plan generated due to missing or failed LLM response\",\n  \"mode\": \""
        ++ request.mode ++ "\",\n  \"contextSummary\": \"" ++ jsonEscape context.summary ++ "\"\n\x7d") }

/-- The `invokeOpenAI` placeholder response (`LLMService.ts:456-459`). -/
def openAIPlaceholder : String := "\x7b\"message\":\"OpenAI not yet implemented\"\x7d"

/-- The `invokeAnthropic` placeholder response (`LLMService.ts:461-464`). -/
def anthropicPlaceholder : String := "\x7b\"message\":\"Anthropic not yet implemented\"\x7d"

/-- Embedding of `LLMService.generatePlan(request, context, prompt)`
(`LLMService.ts:422-446`).  The external Gemini round-trip
(`sendMessage(prompt)`) is modelled by `gemini : Except String String`
(`error` = the call threw).  Every thrown error is caught and routed to the
heuristic plan, so the function is total.  The `switch` statement's `default`
branch is unreachable for the four typed providers (it is modelled by the
`mock` case, which the guard before the switch already intercepts). -/
def llmGeneratePlan (config : LLMConfig) (gemini : Except String String)
    (now : String) (request : PlanRequest) (context : ProjectContext) : RawPlan ⊕ String :=
  if truthy config.apiKey = false ∨ config.provider = LLMProvider.mock then
    Sum.inl (rawOfPlan (heuristicPlan now request context))
  else
    match config.provider with
    | LLMProvider.openai => Sum.inr openAIPlaceholder
    | LLMProvider.anthropic => Sum.inr anthropicPlaceholder
    | LLMProvider.gemini =>
      match gemini with
      | Except.ok text => Sum.inr text
      | Except.error _ => Sum.inl (rawOfPlan (heuristicPlan now request context))
    | LLMProvider.mock => Sum.inl (rawOfPlan (heuristicPlan now request context))

/-- The composed fresh-generation pipeline
(`PlanGenerator.generatePlan` → `LLMService.generatePlan` → `normalisePlan`
→ `rawPlan ?? toMarkdown`). -/
def pipelineGeneratePlan (config : LLMConfig) (gemini : Except String String)
    (parse : String → Option JsValue) (uuid : List Nat → String) (now : String)
    (request : PlanRequest) (context : ProjectContext) : Except String PlanResult :=
  generatePlanRun parse uuid now (llmGeneratePlan config gemini now request context) request context

/-! ## Code-fence stripping (`LLMService.sendMessage`, `LLMService.ts:307-314`)

```
if (text.includes('```json')) \x7b
    text = text.split('```json')[1].split('```')[0].trim();
\x7d else if (text.includes('```')) \x7b
    text = text.split('```')[1].trim();
\x7d
```

`s.split(sep)[1]` is the segment of `s` between the first and second
occurrence of `sep` (to the end of `s` when `sep` occurs once), and
`.split(sep2)[0]` is the prefix up to the first occurrence of `sep2`.  Both
composites are expressed below through `afterFirst` (drop through the first
occurrence) and `beforeFirst` (take up to the first occurrence); for the
tagged branch this is extensionally equal because any later occurrence of
`'```json'` begins with `'```'`, so the `beforeFirst '```'` cut can never
fall beyond the JS segment boundary.  Text is handled as `List Char`. -/

/-- The backtick character, written by code so that the source file itself contains
backticks only inside strings and comments. -/
def btick : Char := Char.ofNat 96

/-- The three-backtick fence marker. -/
def fence3 : List Char := [btick, btick, btick]

/-- The JSON-tagged fence marker `'```json'`. -/
def fenceJson : List Char := [btick, btick, btick, 'j', 's', 'o', 'n']

/-- JS `String.prototype.includes(p)` over char lists. -/
def hasSub (p : List Char) : List Char → Bool
  | [] => p.isPrefixOf []
  | c :: rest => p.isPrefixOf (c :: rest) || hasSub p rest

/-- Everything after the first occurrence of `p` (`none` if `p` never
occurs). -/
def afterFirst (p : List Char) : List Char → Option (List Char)
  | [] => if p.isPrefixOf ([] : List Char) then some [] else none
  | c :: rest =>
    if p.isPrefixOf (c :: rest) then some ((c :: rest).drop p.length)
    else afterFirst p rest

/-- Everything before the first occurrence of `p` (the whole list if `p`
never occurs). -/
def beforeFirst (p : List Char) : List Char → List Char
  | [] => []
  | c :: rest => if p.isPrefixOf (c :: rest) then [] else c :: beforeFirst p rest

/-- The whitespace characters relevant to `String.prototype.trim()` for the
text this system handles. -/
def jsWs (c : Char) : Bool :=
  c = ' ' ∨ c = '\n' ∨ c = '\t' ∨ c = '\x0d'

/-- JS `String.prototype.trim()` over char lists. -/
def trimChars (l : List Char) : List Char :=
  ((l.dropWhile jsWs).reverse.dropWhile jsWs).reverse

/-- The fence-stripping stage of `sendMessage` applied to the (already
trimmed) Gemini response text before the JSON parse attempts. -/
def stripFences (text : List Char) : List Char :=
  if hasSub fenceJson text then
    match afterFirst fenceJson text with
    | some rest => trimChars (beforeFirst fence3 rest)
    | none => text
  else if hasSub fence3 text then
    match afterFirst fence3 text with
    | some rest => trimChars (beforeFirst fence3 rest)
    | none => text
  else text

/-! ## `SidebarProvider` chat flow (`src/ui/SidebarProvider.ts`) -/

structure ChatMessage where
  role : String
  content : String
  timestamp : String
  plan : Option RawPlan := none
  deriving Repr, DecidableEq

/-- The session state mutated by the sidebar handlers.  `currentPlan` holds
whatever JS object was last assigned (a normalised plan, stored via
`rawOfPlan`, or a raw parsed modification result). -/
structure SidebarState where
  conversationHistory : List ChatMessage
  currentPlan : Option RawPlan := none
  projectContext : Option ProjectContext := none
  deriving Repr, DecidableEq

/-- The external collaborators and clock a chat turn consumes. -/
structure ChatEnv where
  /-- `analyzer.analyzeWorkspace()` outcome (`error` = it threw). -/
  analyzeWorkspace : Except String ProjectContext
  /-- `llmService.sendMessage(prompt)` outcome as a function of the prompt. -/
  sendMessage : String → Except String String
  /-- `llmService.sendConversationalMessage(prompt)` outcome. -/
  sendConversational : String → Except String String
  /-- `JSON.parse` behaviour. -/
  parse : String → Option JsValue
  /-- `randomUUID()` source. -/
  uuid : List Nat → String
  /-- `new Date().toISOString()` for this turn. -/
  now : String
  /-- The LLM configuration behind `planGenerator`. -/
  config : LLMConfig
  /-- The Gemini round-trip used by fresh plan generation. -/
  gemini : Except String String

/-- Keyword alternatives of the edit-verb pattern
`/\b(modify|change|update|edit|revise|refine|adjust|improve|add|remove|reduce|increase|expand|simplify)\b/i`. -/
def editVerbs : List String :=
  ["modify", "change", "update", "edit", "revise", "refine", "adjust",
   "improve", "add", "remove", "reduce", "increase", "expand", "simplify"]

/-- Keyword alternatives of the plan-noun pattern `/\b(plan|phase|step|detail)\b/i`. -/
def planNouns : List String := ["plan", "phase", "step", "detail"]

/-- Keyword alternatives of the creation-verb pattern
`/\b(create|generate|make|new|build|implement|develop)\b/i`. -/
def newPlanVerbs : List String := ["create", "generate", "make", "new", "build", "implement", "develop"]

/-- A JS regex word character (`\w`): letter, digit or underscore. -/
def isWordChar (c : Char) : Bool :=
  c.isAlpha ∨ c.isDigit ∨ c = '_'

/-- The maximal word-character runs of a string, lowercased (lowercasing is
performed characterwise, matching `String.prototype.toLowerCase` on the
ASCII keywords involved).  A case-insensitive regex `\bw\b` over plain words
matches a message exactly when `w` is one of these tokens. -/
def tokenize (s : String) : List String :=
  (((s.data.map Char.toLower).splitOnP fun c => !isWordChar c).filter fun t => t ≠ []).map String.mk

/-- Whether any keyword of `kws` matches the message with word boundaries. -/
def matchesAny (kws : List String) (msg : String) : Bool :=
  (tokenize msg).any fun t => kws.contains t

/-- The modification-intent test of `generateResponse`
(`SidebarProvider.ts:217-218`). -/
def isModificationMsg (msg : String) : Bool :=
  matchesAny editVerbs msg && matchesAny planNouns msg

/-- The new-plan-intent test (without the missing-plan disjunct). -/
def isNewPlanMsg (msg : String) : Bool :=
  matchesAny newPlanVerbs msg

/-- The mode-override test of `generateNewPlan`:
`/\b(detailed|multi[-\s]?phase|phases)\b/i`.  The two-token phrase
`multi-phase`/`multi phase` is matched as adjacent tokens `multi`, `phase`
(or the single token `multiphase`). -/
def wantsPhaseMode (msg : String) : Bool :=
  matchesAny ["detailed", "phases", "multiphase"] msg ||
  (((tokenize msg).zip ((tokenize msg).drop 1)).any fun p => p.1 = "multi" ∧ p.2 = "phase")

/-- The quick-mode test of `generateNewPlan`: `/\b(quick|simple|fast)\b/i`. -/
def wantsPlanMode (msg : String) : Bool :=
  matchesAny ["quick", "simple", "fast"] msg

/-- JS string interpolation of a possibly-undefined field: `undefined`
renders as the text `"undefined"`. -/
def jsShow (x : Option String) : String := x.getD "undefined"

/-- The numbered phase lines of the modification prompt,
`phases.map((p, i) => \x60${i + 1}. ${p.title}: ${p.summary}\x60)`, built
left to right from phase index `i`: a `null` element makes `p.title` throw
mid-map. -/
def modPhaseLinesJs : Nat → List JsPhaseVal → Except String (List String)
  | _, [] => Except.ok []
  | _, JsPhaseVal.nullish :: _ =>
    Except.error "Cannot read properties of null (reading 'title')"
  | i, JsPhaseVal.obj p :: rest =>
    (modPhaseLinesJs (i + 1) rest).map fun ls =>
      (toString (i + 1) ++ ". " ++ jsShow p.title ++ ": " ++ jsShow p.summary) :: ls

/-- The trailing-window conversation context: `history.slice(-6)` rendered
as `User:`/`Assistant:` lines. -/
def conversationContext (history : List ChatMessage) : String :=
  String.intercalate "\n\n" ((history.drop (history.length - 6)).map fun msg =>
    (if msg.role = "user" then "User" else "Assistant") ++ ": " ++ msg.content)

/-- The modification prompt built by `modifyPlan`
(`SidebarProvider.ts:268-284`); `plan` is the current plan (the non-null
assertion `this._currentPlan!` in the source) and `phaseLines` the already
rendered `phases.map(...)` lines. -/
def modificationPrompt (plan : RawPlan) (phaseLines : List String)
    (history : List ChatMessage) (userMessage : String) : String :=
  "You are modifying an existing implementation plan based on user feedback.\n\n" ++
  "Current Plan Summary:\n" ++ jsShow plan.summary ++ "\n\n" ++
  "Current Phases:\n" ++
  String.intercalate "\n" phaseLines ++ "\n\n" ++
  "Conversation History:\n" ++ conversationContext history ++ "\n\n" ++
  "User's Modification Request:\n" ++ userMessage ++ "\n\n" ++
  "Generate an UPDATED plan in JSON format that incorporates the user's requested changes while maintaining the structure of the previous plan. Make sure to address their specific modification request.\n\n" ++
  "Return ONLY valid JSON matching the PlanResult structure."

/-- The phase titles interpolation of the modification reply,
`updatedPlan.phases.map(p => p.title).join(', ')`: a `null` element makes
`p.title` throw. -/
def phaseTitlesJs : List JsPhaseVal → Except String (List String)
  | [] => Except.ok []
  | JsPhaseVal.nullish :: _ =>
    Except.error "Cannot read properties of null (reading 'title')"
  | JsPhaseVal.obj p :: rest => (phaseTitlesJs rest).map fun ts => jsShow p.title :: ts

/-- What `p.steps.length` yields inside the step-count reduce: the length
for an array, a throw for a nullish `steps`, and otherwise the value's
`length` property (`none` = `undefined`, which turns the running sum into
`NaN`). -/
def stepsLengthJs : JsArrayVal JsStepVal → Except String (Option Nat)
  | JsArrayVal.array l => Except.ok (some l.length)
  | JsArrayVal.nullish =>
    Except.error "Cannot read properties of undefined (reading 'length')"
  | JsArrayVal.falsyScalar lv => Except.ok lv
  | JsArrayVal.nonArray lv => Except.ok lv

/-- JS numeric addition with `undefined` on the right: `acc + undefined` is
`NaN` (`none`), and `NaN` absorbs every further addition. -/
def jsAddLength (acc x : Option Nat) : Option Nat :=
  match acc, x with
  | some a, some b => some (a + b)
  | _, _ => none

/-- Rendering of the accumulated step count: a number, or `NaN`. -/
def renderCount : Option Nat → String
  | some n => toString n
  | none => "NaN"

/-- The step-count reduce of the modification reply,
`phases.reduce((acc, p) => acc + p.steps.length, 0)`, left to right: a
`null` phase element makes `p.steps` throw. -/
def stepCountJs (acc : Option Nat) : List JsPhaseVal → Except String (Option Nat)
  | [] => Except.ok acc
  | JsPhaseVal.nullish :: _ =>
    Except.error "Cannot read properties of null (reading 'steps')"
  | JsPhaseVal.obj p :: rest =>
    match stepsLengthJs p.steps with
    | Except.error e => Except.error e
    | Except.ok n => stepCountJs (jsAddLength acc n) rest

/-- The assistant reply of a successful modification
(`SidebarProvider.ts:291-295`); the template's interpolations evaluate left
to right (`phases.length`, the titles map, the step-count reduce, the
summary), so the first throwing one propagates. -/
def modifySuccessText (updated : RawPlan) (phs : List JsPhaseVal) : Except String String :=
  match phaseTitlesJs phs with
  | Except.error e => Except.error e
  | Except.ok titles =>
    match stepCountJs (some 0) phs with
    | Except.error e => Except.error e
    | Except.ok cnt =>
      Except.ok
        ("I've updated the plan based on your feedback. Here's what changed:\n\n" ++
         "📋 **" ++ toString phs.length ++ " Phase" ++ (if phs.length > 1 then "s" else "") ++
         "**: " ++ String.intercalate ", " titles ++ "\n" ++
         "📝 **" ++ renderCount cnt ++ " Steps** total\n\n" ++
         jsShow updated.summary ++ "\n\n" ++
         "Let me know if you need any other adjustments!")

/-- The error text `JSON.parse` failures surface with (the JS `SyntaxError`
message is platform text; its exact wording is not modelled). -/
def jsonSyntaxError : String := "Unexpected token in JSON"

/-- Embedding of `modifyPlan(userMessage)` (`SidebarProvider.ts:259-298`).
Returns the state after the call together with the outcome.  Prompt
building already throws if the stored current plan's `phases` is not an
array of non-null objects (`this._currentPlan!.phases.map` / `p.title`).
The source assigns `this._currentPlan = updatedPlan` right after the parse,
so the state records mutations performed before any later throw; the reply
construction then throws on a non-array `updatedPlan.phases`
(`.length`/`.map`), on a `null` phase element, or on a nullish `steps`
inside the reduce, matching `modifySuccessText`. -/
def modifyPlan (env : ChatEnv) (st : SidebarState) (plan : RawPlan) (userMessage : String) :
    SidebarState × Except String (String × RawPlan) :=
  match plan.phases with
  | JsArrayVal.nullish =>
    (st, Except.error "Cannot read properties of undefined (reading 'map')")
  | JsArrayVal.falsyScalar _ =>
    (st, Except.error "this._currentPlan.phases.map is not a function")
  | JsArrayVal.nonArray _ =>
    (st, Except.error "this._currentPlan.phases.map is not a function")
  | JsArrayVal.array currentPhs =>
    match modPhaseLinesJs 0 currentPhs with
    | Except.error e => (st, Except.error e)
    | Except.ok lines =>
      match env.sendMessage (modificationPrompt plan lines st.conversationHistory userMessage) with
      | Except.error e => (st, Except.error e)
      | Except.ok llmResponse =>
        match env.parse llmResponse with
        | none => (st, Except.error jsonSyntaxError)
        | some (JsValue.object updated) =>
          match updated.phases with
          | JsArrayVal.array phs =>
            ({ st with currentPlan := some updated },
             (modifySuccessText updated phs).map fun text => (text, updated))
          | JsArrayVal.nullish =>
            ({ st with currentPlan := some updated },
             Except.error "Cannot read properties of undefined (reading 'length')")
          | JsArrayVal.falsyScalar _ =>
            ({ st with currentPlan := some updated },
             Except.error "updatedPlan.phases.map is not a function")
          | JsArrayVal.nonArray _ =>
            ({ st with currentPlan := some updated },
             Except.error "updatedPlan.phases.map is not a function")
        | some JsValue.scalar =>
          ({ st with currentPlan := some {} },
           Except.error "Cannot read properties of undefined (reading 'length')")
        | some JsValue.null =>
          ({ st with currentPlan := none },
           Except.error "Cannot read properties of null (reading 'phases')")

/-- The assistant reply of a fresh generation (`SidebarProvider.ts:250-254`). -/
def newPlanText (mode : String) (plan : PlanResult) : String :=
  "I've created " ++ (if mode = "phase" then "a detailed multi-phase" else "a") ++
  " implementation plan for your request. The plan includes:\n\n" ++
  "📋 **" ++ toString plan.phases.length ++ " Phase" ++ (if plan.phases.length > 1 then "s" else "") ++ "**: " ++
  String.intercalate ", " (plan.phases.map PlanPhase.title) ++ "\n" ++
  "📝 **" ++ toString (plan.phases.foldl (fun acc p => acc + p.steps.length) 0) ++ " Steps** across all phases\n\n" ++
  plan.summary ++ "\n\n" ++
  "You can ask me to modify specific parts, add more details, or regenerate the plan with different requirements."

/-- The mode-override logic of `generateNewPlan`
(`SidebarProvider.ts:238-240`). -/
def resolvePlanMode (userMessage preferredMode : String) : String :=
  if wantsPhaseMode userMessage then "phase"
  else if wantsPlanMode userMessage then "plan"
  else preferredMode

/-- Embedding of `generateNewPlan(userMessage, preferredMode)`
(`SidebarProvider.ts:234-257`); `ctx` is the resolved project context.  A
TypeError thrown inside `generatePlan` propagates before `_currentPlan` is
assigned. -/
def generateNewPlan (env : ChatEnv) (st : SidebarState) (ctx : ProjectContext)
    (userMessage preferredMode : String) : SidebarState × Except String (String × RawPlan) :=
  match pipelineGeneratePlan env.config env.gemini env.parse env.uuid env.now
      { task := userMessage, mode := resolvePlanMode userMessage preferredMode, hints := none } ctx with
  | Except.error e => (st, Except.error e)
  | Except.ok plan =>
    ({ st with currentPlan := some (rawOfPlan plan) },
     Except.ok (newPlanText (resolvePlanMode userMessage preferredMode) plan, rawOfPlan plan))

/-- The general-query prompt of `handleGeneralQuery`
(`SidebarProvider.ts:308-318`). -/
def generalQueryPrompt (st : SidebarState) (userMessage : String) : String :=
  "You are Traycer, an AI planning assistant for software development. Help the user with their question about implementation planning.\n\n" ++
  (match st.currentPlan with
   | some p => "Current Plan Context:\nTask: " ++ jsShow p.task ++ "\nSummary: " ++ jsShow p.summary ++ "\n\n"
   | none => "") ++ "\n\n" ++
  "Conversation History:\n" ++ conversationContext st.conversationHistory ++ "\n\n" ++
  "User Question:\n" ++ userMessage ++ "\n\n" ++
  "Provide a helpful, concise response (plain text, not JSON). If they're asking about creating a plan, encourage them to describe their task. If they're asking about the current plan, reference specific phases or steps. Keep your response conversational and under 300 words."

/-- Embedding of `generateResponse(userMessage, preferredMode)`
(`SidebarProvider.ts:213-232`): intent classification and routing; `ctx` is
the resolved project context. -/
def generateResponse (env : ChatEnv) (st : SidebarState) (ctx : ProjectContext)
    (userMessage preferredMode : String) : SidebarState × Except String (String × Option RawPlan) :=
  match (if isModificationMsg userMessage then st.currentPlan else none) with
  | some plan =>
    ((modifyPlan env st plan userMessage).1,
     (modifyPlan env st plan userMessage).2.map fun tp => (tp.1, some tp.2))
  | none =>
    if isNewPlanMsg userMessage ∨ st.currentPlan.isNone then
      ((generateNewPlan env st ctx userMessage preferredMode).1,
       (generateNewPlan env st ctx userMessage preferredMode).2.map fun tp => (tp.1, some tp.2))
    else
      match env.sendConversational (generalQueryPrompt st userMessage) with
      | Except.ok text => (st, Except.ok (text, none))
      | Except.error e => (st, Except.error e)

/-- The user chat message pushed to the conversation at the start of a
turn. -/
def userChatMessage (now userMessage : String) : ChatMessage :=
  { role := "user", content := userMessage, timestamp := now }

/-- The assistant chat message surfacing a caught error
(`❌ Error: ${error.message}`). -/
def errorChatMessage (now e : String) : ChatMessage :=
  { role := "assistant", content := "❌ Error: " ++ e, timestamp := now }

/-- Appending a chat message to the conversation history. -/
def pushMessage (st : SidebarState) (msg : ChatMessage) : SidebarState :=
  { st with conversationHistory := st.conversationHistory ++ [msg] }

/-- The tail of `handleChatMessage`: push the assistant reply on success, or
push the `❌ Error:` message on a caught failure, keeping every state
mutation made before the throw. -/
def runGenerated (env : ChatEnv)
    (result : SidebarState × Except String (String × Option RawPlan)) : SidebarState :=
  match result with
  | (st3, Except.ok (text, plan)) =>
    pushMessage st3 { role := "assistant", content := text, timestamp := env.now, plan := plan }
  | (st3, Except.error e) => pushMessage st3 (errorChatMessage env.now e)

/-- Embedding of `handleChatMessage(userMessage, mode)`
(`SidebarProvider.ts:137-211`): guard empty input (the trim is the
structural `trimChars` model of `String.prototype.trim`), push the user
message, resolve the project context (analysing the workspace on first
use), run `generateResponse`, and push either the assistant reply or a
`❌ Error: ...` chat message; a failure keeps every mutation made before
the throw but performs none of the success-path ones. -/
def handleChatMessage (env : ChatEnv) (st : SidebarState)
    (userMessage : String) (mode : Option String) : SidebarState :=
  if String.mk (trimChars userMessage.data) = "" then st
  else
    match st.projectContext with
    | some ctx =>
      runGenerated env (generateResponse env
        (pushMessage st (userChatMessage env.now userMessage)) ctx
        userMessage (orElseStr mode "phase"))
    | none =>
      match env.analyzeWorkspace with
      | Except.ok ctx =>
        runGenerated env (generateResponse env
          { pushMessage st (userChatMessage env.now userMessage) with projectContext := some ctx }
          ctx userMessage (orElseStr mode "phase"))
      | Except.error e =>
        pushMessage (pushMessage st (userChatMessage env.now userMessage))
          (errorChatMessage env.now e)

/-! ## Timestamp validity (specification notion) -/

/-- Modelled from the spec: "`generatedAt` is always a valid timestamp"
(ISO-8601, the `YYYY-MM-DDTHH:MM:SS.mmmZ` shape produced by
`Date.prototype.toISOString`).  The code never checks validity, so this
notion exists only in the spec; it is needed to state claims about
timestamp validity. -/
def isValidIso8601 (s : String) : Bool :=
  match s.toList with
  | [y1, y2, y3, y4, d1, m1, m2, d2, dd1, dd2, t, h1, h2, c1, mi1, mi2, c2, s1, s2, dot, ms1, ms2, ms3, z] =>
    y1.isDigit && y2.isDigit && y3.isDigit && y4.isDigit && d1 = '-' &&
    m1.isDigit && m2.isDigit && d2 = '-' && dd1.isDigit && dd2.isDigit &&
    t = 'T' && h1.isDigit && h2.isDigit && c1 = ':' && mi1.isDigit && mi2.isDigit &&
    c2 = ':' && s1.isDigit && s2.isDigit && dot = '.' &&
    ms1.isDigit && ms2.isDigit && ms3.isDigit && z = 'Z'
  | _ => false

/-! ## Shared helper lemmas -/

theorem orElseStr_of_falsy (x : Option String) (d : String) (h : truthy x = false) :
    orElseStr x d = d := by
  cases x with
  | none => rfl
  | some s =>
    simp only [truthy, ne_eq, decide_not, Bool.not_eq_false', decide_eq_true_eq] at h
    simp [orElseStr, h]

theorem orElseStr_of_truthy (s d : String) (h : s ≠ "") :
    orElseStr (some s) d = s := by
  simp [orElseStr, h]

theorem ensureStep_rawOfStep (uuid : List Nat → String) (i j : Nat) (s : PlanStep) :
    ensureStepStructure uuid i j (rawOfStep s) = Except.ok s := rfl

theorem ensureSteps_rawOfStep (uuid : List Nat → String) (i : Nat) :
    ∀ (j : Nat) (l : List PlanStep),
      ensureSteps uuid i j (l.map rawOfStep) = Except.ok l := by
  intro j l
  induction l generalizing j with
  | nil => rfl
  | cons a l ih => simp [ensureSteps, ensureStep_rawOfStep, ih]

theorem ensurePhase_rawOfPhase (uuid : List Nat → String) (i : Nat) (ph : PlanPhase) :
    ensurePhaseStructure uuid i (rawOfPhase ph) = Except.ok ph := by
  cases ph with
  | mk id title summary steps =>
    simp [ensurePhaseStructure, rawOfPhase, ensureSteps_rawOfStep]

theorem ensurePhases_rawOfPhase (uuid : List Nat → String) :
    ∀ (i : Nat) (l : List PlanPhase),
      ensurePhases uuid i (l.map rawOfPhase) = Except.ok l := by
  intro i l
  induction l generalizing i with
  | nil => rfl
  | cons a l ih => simp [ensurePhases, ensurePhase_rawOfPhase, ih]

theorem createFallbackPlan_phases_ne_nil (now : String) (request : PlanRequest)
    (context : ProjectContext) : (createFallbackPlan now request context).phases ≠ [] := by
  unfold createFallbackPlan createPhasedPlan
  split <;> simp

/-- Normalising a well-formed parsed document succeeds and keeps its phases
verbatim, canonicalising the scalar fields with their `||` defaults. -/
theorem normaliseParsed_rawOfPlan (uuid : List Nat → String) (now : String)
    (request : PlanRequest) (context : ProjectContext) (doc : PlanResult)
    (h : doc.phases ≠ []) :
    normaliseParsed uuid now request context (rawOfPlan doc)
      = Except.ok
        { task := orElseStr (some doc.task) request.task
          mode := orElseStr (some doc.mode) request.mode
          summary := orElseStr (some doc.summary) context.summary
          generatedAt := orElseStr (some doc.generatedAt) now
          phases := doc.phases
          rawPlan := doc.rawPlan } := by
  cases hd : doc.phases with
  | nil => exact absurd hd h
  | cons a l =>
    unfold normaliseParsed
    rw [show (rawOfPlan doc).phases = JsArrayVal.array (doc.phases.map rawOfPhase) from rfl,
      hd, List.map_cons]
    dsimp only
    rw [show rawOfPhase a :: List.map rawOfPhase l = List.map rawOfPhase (a :: l) from rfl,
      ensurePhases_rawOfPhase uuid 0 (a :: l)]
    rfl

/-- Normalising a response that resolves to a well-formed document succeeds
with its phases kept verbatim. -/
theorem normalisePlan_resolved (parse : String → Option JsValue)
    (uuid : List Nat → String) (now : String) (request : PlanRequest)
    (context : ProjectContext) (doc : PlanResult) (response : RawPlan ⊕ String)
    (hres : (match response with
      | Sum.inr s => tryParsePlan parse s
      | Sum.inl p => some p) = some (rawOfPlan doc))
    (h : doc.phases ≠ []) :
    normalisePlan parse uuid now response request context
      = Except.ok
        { task := orElseStr (some doc.task) request.task
          mode := orElseStr (some doc.mode) request.mode
          summary := orElseStr (some doc.summary) context.summary
          generatedAt := orElseStr (some doc.generatedAt) now
          phases := doc.phases
          rawPlan := doc.rawPlan } := by
  unfold normalisePlan
  rw [hres]
  exact normaliseParsed_rawOfPlan uuid now request context doc h

/-- Either-way computation form of `normalisePlan` on a structured (JS
object) response. -/
theorem normalisePlan_inl (parse : String → Option JsValue) (uuid : List Nat → String)
    (now : String) (request : PlanRequest) (context : ProjectContext) (plan : RawPlan) :
    normalisePlan parse uuid now (Sum.inl plan) request context
      = normaliseParsed uuid now request context plan := rfl

/-- Whatever document a successful parsed-plan normalisation returns carries
the `||`-canonicalised scalar fields. -/
theorem normaliseParsed_fields (uuid : List Nat → String) (now : String)
    (request : PlanRequest) (context : ProjectContext) (plan : RawPlan)
    (out : PlanResult)
    (h : normaliseParsed uuid now request context plan = Except.ok out) :
    out.task = orElseStr plan.task request.task
    ∧ out.mode = orElseStr plan.mode request.mode
    ∧ out.summary = orElseStr plan.summary context.summary
    ∧ out.generatedAt = orElseStr plan.generatedAt now := by
  unfold normaliseParsed at h
  have finish : ∀ (phs : List JsPhaseVal),
      (match ensurePhases uuid 0 phs with
        | Except.error e => Except.error e
        | Except.ok ensured =>
          Except.ok
            { task := orElseStr plan.task request.task
              mode := orElseStr plan.mode request.mode
              summary := orElseStr plan.summary context.summary
              generatedAt := orElseStr plan.generatedAt now
              phases := ensured
              rawPlan := plan.rawPlan }) = Except.ok out →
      out.task = orElseStr plan.task request.task
      ∧ out.mode = orElseStr plan.mode request.mode
      ∧ out.summary = orElseStr plan.summary context.summary
      ∧ out.generatedAt = orElseStr plan.generatedAt now := by
    intro phs hph
    rcases hens : ensurePhases uuid 0 phs with e | ensured <;> rw [hens] at hph
    · exact absurd hph (by simp)
    · injection hph with hout
      rw [← hout]
      exact ⟨rfl, rfl, rfl, rfl⟩
  rcases hph : plan.phases with _ | lv | (_ | ⟨a, ps⟩) | lv <;> rw [hph] at h <;>
    dsimp only at h
  · exact finish _ h
  · exact finish _ h
  · exact finish _ h
  · exact finish _ h
  · exact absurd h (by simp)

/-! ## Claims -/

/-- C1.  The spec asserts the normaliser is total and never throws past its
own boundary; the code is not total: a valid-JSON backend response whose
`phases` array contains a `null` element makes the repair throw a TypeError
at `phase.id` (`PlanGenerator.ts:150`), and a phase whose `steps` is a
truthy non-array survives `?? []` and makes `.map` throw
(`PlanGenerator.ts:153`) — both reachable, since `tryParsePlan` only checks
`Array.isArray(parsed.phases)`.  This theorem evaluates the embedded code
at the failing inputs `\x7b"phases":[null]\x7d` and
`\x7b"phases":[\x7b"steps":42\x7d]\x7d`. -/
theorem normalisePlan_throws_on_malformed_elements :
    normalisePlan
      (fun s =>
        if s = "\x7b\"phases\":[null]\x7d" then
          some (JsValue.object { phases := JsArrayVal.array [JsPhaseVal.nullish] })
        else if s = "\x7b\"phases\":[\x7b\"steps\":42\x7d]\x7d" then
          some (JsValue.object
            { phases := JsArrayVal.array [JsPhaseVal.obj { steps := JsArrayVal.nonArray none }] })
        else none)
      (fun _ => "u") "N" (Sum.inr "\x7b\"phases\":[null]\x7d")
      { task := "rt", mode := "phase", hints := none }
      { rootPath := "/r", files := [], techStack := [], summary := "cs" }
      = Except.error "Cannot read properties of null (reading 'id')"
    ∧ normalisePlan
      (fun s =>
        if s = "\x7b\"phases\":[null]\x7d" then
          some (JsValue.object { phases := JsArrayVal.array [JsPhaseVal.nullish] })
        else if s = "\x7b\"phases\":[\x7b\"steps\":42\x7d]\x7d" then
          some (JsValue.object
            { phases := JsArrayVal.array [JsPhaseVal.obj { steps := JsArrayVal.nonArray none }] })
        else none)
      (fun _ => "u") "N" (Sum.inr "\x7b\"phases\":[\x7b\"steps\":42\x7d]\x7d")
      { task := "rt", mode := "phase", hints := none }
      { rootPath := "/r", files := [], techStack := [], summary := "cs" }
      = Except.error "phase.steps.map is not a function" := by
  decide

/-- C5.  In multi-phase fallback synthesis the three slices are contiguous,
non-overlapping and cover the capped file list exactly once:
their concatenation is the capped list, their lengths sum to
`min files.length 10`, and the step counts of `createPhasedPlan` are the
slice lengths (plus the fixed closing step of the Implementation and
Validation phases). -/
theorem createPhasedPlan_partition (files : List ScannedFile) :
    analysisFiles (jsSlice files 0 10) ++ implementationFiles (jsSlice files 0 10) ++
      verificationFiles (jsSlice files 0 10) = jsSlice files 0 10
    ∧ (analysisFiles (jsSlice files 0 10)).length +
        (implementationFiles (jsSlice files 0 10)).length +
        (verificationFiles (jsSlice files 0 10)).length = min files.length 10
    ∧ ((createPhasedPlan (jsSlice files 0 10)).map fun ph => ph.steps.length) =
        [(analysisFiles (jsSlice files 0 10)).length,
         (implementationFiles (jsSlice files 0 10)).length + 1,
         (verificationFiles (jsSlice files 0 10)).length + 1] := by
  have key : ∀ (l : List ScannedFile),
      analysisFiles l ++ implementationFiles l ++ verificationFiles l = l := by
    intro l
    have hA : analysisFiles l = l.take (max 2 ((l.length + 2) / 3)) := by
      simp [analysisFiles, jsSlice]
    set m := max 2 ((l.length + 2) / 3) with hm
    set a := (l.take m).length with ha
    have hmin : a = min m l.length := by rw [ha, List.length_take]
    have haL : (analysisFiles l).length = a := by rw [hA]
    have hImp : implementationFiles l = (l.drop a).take a := by
      unfold implementationFiles jsSlice
      rw [haL]
      congr 1
      omega
    have hVer : verificationFiles l = l.drop (a + a) := by
      unfold verificationFiles
      rw [haL]
      congr 1
      omega
    have htake : analysisFiles l = l.take a := by
      rw [hA]
      rw [List.take_eq_take]
      omega
    rw [htake, hImp, hVer, ← List.take_add, List.take_append_drop]
  refine ⟨key (jsSlice files 0 10), ?_, ?_⟩
  · have hlen := congrArg List.length (key (jsSlice files 0 10))
    simp only [List.length_append] at hlen
    have hcap : (jsSlice files 0 10).length = min files.length 10 := by
      simp [jsSlice, List.length_take, Nat.min_comm]
    omega
  · simp [createPhasedPlan, List.length_append, List.enum_length]

/-- C6.  Normalising an already-well-formed `PlanDocument`, passed through
as backend-returned JSON (any `parse` behaviour mapping the response text to
that exact object), is idempotent on phases: the output phases are the
input's, so every phase id and step id already present is kept unchanged. -/
theorem normalisePlan_idempotent_phases (parse : String → Option JsValue)
    (uuid : List Nat → String) (now : String) (request : PlanRequest)
    (context : ProjectContext) (doc : PlanResult) (s : String)
    (hparse : parse s = some (JsValue.object (rawOfPlan doc)))
    (hph : doc.phases ≠ []) :
    (normalisePlan parse uuid now (Sum.inr s) request context).map PlanResult.phases
      = Except.ok doc.phases := by
  have hstep : tryParsePlan parse s = some (rawOfPlan doc) := by
    simp [tryParsePlan, hparse, rawOfPlan]
  rw [normalisePlan_resolved parse uuid now request context doc (Sum.inr s) hstep hph]
  rfl

/-- C6 witness: a concrete two-phase document with all ids present keeps its
phases (their ids included) across normalisation. -/
theorem normalisePlan_idempotent_phases_witness :
    (normalisePlan
      (fun t => if t = "resp" then
          some (JsValue.object (rawOfPlan
            { task := "T", mode := "phase", summary := "S", generatedAt := "G"
              phases :=
                [ { id := "p1", title := "A", summary := "sa"
                    steps := [{ id := "s1", title := "st", description := "d",
                                references := ["f.ts"], reasoning := some "r",
                                estimatedEffort := some "Low" }] },
                  { id := "p2", title := "B", summary := "sb", steps := [] } ]
              rawPlan := none }))
        else none)
      (fun _ => "uuid") "N" (Sum.inr "resp")
      { task := "rt", mode := "phase", hints := none }
      { rootPath := "/r", files := [], techStack := [], summary := "cs" }).map PlanResult.phases =
      Except.ok
      [ { id := "p1", title := "A", summary := "sa"
          steps := [{ id := "s1", title := "st", description := "d",
                      references := ["f.ts"], reasoning := some "r",
                      estimatedEffort := some "Low" }] },
        { id := "p2", title := "B", summary := "sb", steps := [] } ] := by
  exact normalisePlan_idempotent_phases _ _ _ _ _
    { task := "T", mode := "phase", summary := "S", generatedAt := "G"
      phases :=
        [ { id := "p1", title := "A", summary := "sa"
            steps := [{ id := "s1", title := "st", description := "d",
                        references := ["f.ts"], reasoning := some "r",
                        estimatedEffort := some "Low" }] },
          { id := "p2", title := "B", summary := "sb", steps := [] } ]
      rawPlan := none }
    "resp" (by decide) (by decide)

/-- C10.  The backend adapter's `generatePlan` never propagates an
exception: it is a total function, and whenever the API key is falsy, the
provider is `mock`, or the Gemini call throws, it returns the heuristic
result — exactly one phase titled "Fallback Plan" with exactly two fixed
steps.  (An "unsupported" provider value is unrepresentable in the typed
`LLMProvider`; the `switch` default that would catch one routes to the same
heuristic plan.) -/
theorem llmGeneratePlan_never_fails (config : LLMConfig) (gemini : Except String String)
    (now : String) (request : PlanRequest) (context : ProjectContext)
    (h : truthy config.apiKey = false ∨ config.provider = LLMProvider.mock ∨
         (config.provider = LLMProvider.gemini ∧ ∃ e, gemini = Except.error e)) :
    llmGeneratePlan config gemini now request context
      = Sum.inl (rawOfPlan (heuristicPlan now request context))
    ∧ ((heuristicPlan now request context).phases.map PlanPhase.title) = ["Fallback Plan"]
    ∧ ((heuristicPlan now request context).phases.map fun ph => ph.steps.length) = [2]
    ∧ ((heuristicPlan now request context).phases.map fun ph =>
        ph.steps.map PlanStep.title) = [["Analyze project context", "Refine requirements"]] := by
  refine ⟨?_, rfl, rfl, rfl⟩
  unfold llmGeneratePlan
  by_cases hak : truthy config.apiKey = false
  · simp [hak]
  · rcases h with h | h | ⟨hg, e, he⟩
    · exact absurd h hak
    · simp [h]
    · simp [hak, hg, he]

/-- C10 witness: the mock provider with no API key yields the heuristic
single-phase fallback. -/
theorem llmGeneratePlan_never_fails_witness :
    llmGeneratePlan { provider := LLMProvider.mock, apiKey := none } (Except.error "boom")
        "N" { task := "t", mode := "phase", hints := none }
        { rootPath := "/r", files := [], techStack := [], summary := "cs" }
      = Sum.inl (rawOfPlan (heuristicPlan "N" { task := "t", mode := "phase", hints := none }
          { rootPath := "/r", files := [], techStack := [], summary := "cs" }))
    ∧ ((heuristicPlan "N" { task := "t", mode := "phase", hints := none }
          { rootPath := "/r", files := [], techStack := [], summary := "cs" }).phases.map
        PlanPhase.title) = ["Fallback Plan"]
    ∧ ((heuristicPlan "N" { task := "t", mode := "phase", hints := none }
          { rootPath := "/r", files := [], techStack := [], summary := "cs" }).phases.map
        fun ph => ph.steps.length) = [2]
    ∧ ((heuristicPlan "N" { task := "t", mode := "phase", hints := none }
          { rootPath := "/r", files := [], techStack := [], summary := "cs" }).phases.map
        fun ph => ph.steps.map PlanStep.title) = [["Analyze project context", "Refine requirements"]] :=
  llmGeneratePlan_never_fails _ _ _ _ _ (Or.inl (by decide))

/-- C2 counterexample: a fresh generation with the mock backend, zero
scanned files and multi-phase mode yields one phase titled "Fallback Plan",
not the three phases the claim expects. -/
theorem mockPipeline_counterexample :
    ((pipelineGeneratePlan { provider := LLMProvider.mock, apiKey := none } (Except.error "")
        (fun _ => none) (fun _ => "u") "N"
        { task := "t", mode := "phase", hints := none }
        { rootPath := "/r", files := [], techStack := [], summary := "s" }).map
      fun p => p.phases.map PlanPhase.title) = Except.ok ["Fallback Plan"]
    ∧ ((pipelineGeneratePlan { provider := LLMProvider.mock, apiKey := none } (Except.error "")
        (fun _ => none) (fun _ => "u") "N"
        { task := "t", mode := "phase", hints := none }
        { rootPath := "/r", files := [], techStack := [], summary := "s" }).map
      fun p => p.phases.map PlanPhase.title)
        ≠ Except.ok ["Analysis & Discovery", "Implementation", "Validation & Verification"]
    ∧ ((pipelineGeneratePlan { provider := LLMProvider.mock, apiKey := none } (Except.error "")
        (fun _ => none) (fun _ => "u") "N"
        { task := "t", mode := "phase", hints := none }
        { rootPath := "/r", files := [], techStack := [], summary := "s" }).map
      fun p => p.phases.length) = Except.ok 1 := by
  decide

/-- C2 (amended).  A fresh generation with the mock backend succeeds and
yields exactly one phase titled "Fallback Plan" with exactly two steps, for
every request, context and mode; the three-phase structure (Analysis &
Discovery, Implementation, Validation & Verification) belongs to
`createPhasedPlan`, which is reached only when the normaliser itself falls
back in `phase` mode, and with zero files its Analysis phase has zero steps
(the `max(2, ceil(n/3))` floor applies to available files only) while the
other two phases keep just their fixed closing step. -/
theorem mockPipeline_fallback_phase (cfg : LLMConfig) (gem : Except String String)
    (parse : String → Option JsValue) (uuid : List Nat → String) (now : String)
    (request : PlanRequest) (context : ProjectContext)
    (h : cfg.provider = LLMProvider.mock) :
    ((pipelineGeneratePlan cfg gem parse uuid now request context).map
        fun p => p.phases.map PlanPhase.title) = Except.ok ["Fallback Plan"]
    ∧ ((pipelineGeneratePlan cfg gem parse uuid now request context).map
        fun p => p.phases.map fun ph => ph.steps.length) = Except.ok [2]
    ∧ ((createPhasedPlan []).map PlanPhase.title)
        = ["Analysis & Discovery", "Implementation", "Validation & Verification"]
    ∧ ((createPhasedPlan []).map fun ph => ph.steps.length) = [0, 1, 1] := by
  have hllm : llmGeneratePlan cfg gem now request context
      = Sum.inl (rawOfPlan (heuristicPlan now request context)) := by
    unfold llmGeneratePlan
    simp [h]
  have hnorm := normalisePlan_resolved parse uuid now request context
    (heuristicPlan now request context) (Sum.inl (rawOfPlan (heuristicPlan now request context)))
    rfl (by simp [heuristicPlan])
  have hpipe : pipelineGeneratePlan cfg gem parse uuid now request context
      = (normalisePlan parse uuid now
          (Sum.inl (rawOfPlan (heuristicPlan now request context))) request context).map
        fun plan => { plan with rawPlan := some (plan.rawPlan.getD (toMarkdown plan)) } := by
    unfold pipelineGeneratePlan generatePlanRun
    rw [hllm]
  refine ⟨?_, ?_, by decide, by decide⟩ <;> rw [hpipe, hnorm] <;> rfl

/-- C2 witness: the amended statement at the claim's concrete scenario
(mock backend, zero files, multi-phase mode). -/
theorem mockPipeline_fallback_phase_witness :
    ((pipelineGeneratePlan { provider := LLMProvider.mock, apiKey := none } (Except.error "")
        (fun _ => none) (fun _ => "u") "N"
        { task := "t2", mode := "phase", hints := none }
        { rootPath := "/r", files := [], techStack := [], summary := "s" }).map
      fun p => p.phases.map PlanPhase.title) = Except.ok ["Fallback Plan"]
    ∧ ((pipelineGeneratePlan { provider := LLMProvider.mock, apiKey := none } (Except.error "")
        (fun _ => none) (fun _ => "u") "N"
        { task := "t2", mode := "phase", hints := none }
        { rootPath := "/r", files := [], techStack := [], summary := "s" }).map
      fun p => p.phases.map fun ph => ph.steps.length) = Except.ok [2]
    ∧ ((createPhasedPlan []).map PlanPhase.title)
        = ["Analysis & Discovery", "Implementation", "Validation & Verification"]
    ∧ ((createPhasedPlan []).map fun ph => ph.steps.length) = [0, 1, 1] :=
  mockPipeline_fallback_phase _ _ _ _ _ _ _ rfl

/-- C4 counterexample: a parsed plan carrying the corrupted timestamp
`"not-a-date"` keeps it verbatim — the output `generatedAt` is neither a
valid ISO-8601 timestamp nor the normalisation time. -/
theorem generatedAt_kept_counterexample :
    (normalisePlan (fun _ => none) (fun _ => "u") "2026-01-01T00:00:00.000Z"
      (Sum.inl { task := some "T", mode := some "phase", summary := some "S",
                 generatedAt := some "not-a-date",
                 phases := JsArrayVal.array
                   [JsPhaseVal.obj { id := some "p", title := some "t", summary := some "s",
                                     steps := JsArrayVal.array [] }],
                 rawPlan := none })
      { task := "rt", mode := "plan", hints := none }
      { rootPath := "/r", files := [], techStack := [], summary := "cs" }).map
        PlanResult.generatedAt
        = Except.ok "not-a-date"
    ∧ isValidIso8601 "not-a-date" = false
    ∧ ("not-a-date" : String) ≠ "2026-01-01T00:00:00.000Z" := by
  decide

/-- C4 (amended).  Canonicalisation fills fields with `||` defaults: in any
document a parsed-plan normalisation returns, a missing or empty
`task`/`mode`/`summary`/`generatedAt` ends up replaced by the request's
task, the request's mode, the context's summary and the normalisation time
respectively (so `mode` is never undefined), while a non-empty
`generatedAt` is kept verbatim even when it is not a valid timestamp. -/
theorem canonicalise_missing_fields (parse : String → Option JsValue)
    (uuid : List Nat → String) (now : String) (request : PlanRequest)
    (context : ProjectContext) (plan planKept : RawPlan) (g : String)
    (out outKept : PlanResult)
    (htask : truthy plan.task = false) (hmode : truthy plan.mode = false)
    (hsum : truthy plan.summary = false) (hgen : truthy plan.generatedAt = false)
    (hout : normalisePlan parse uuid now (Sum.inl plan) request context = Except.ok out)
    (hkept : planKept.generatedAt = some g) (hg : g ≠ "")
    (houtKept : normalisePlan parse uuid now (Sum.inl planKept) request context
      = Except.ok outKept) :
    out.task = request.task
    ∧ out.mode = request.mode
    ∧ out.summary = context.summary
    ∧ out.generatedAt = now
    ∧ outKept.generatedAt = g := by
  rw [normalisePlan_inl] at hout houtKept
  obtain ⟨ht, hm, hs, hgat⟩ := normaliseParsed_fields uuid now request context plan out hout
  obtain ⟨_, _, _, hgat2⟩ :=
    normaliseParsed_fields uuid now request context planKept outKept houtKept
  refine ⟨?_, ?_, ?_, ?_, ?_⟩
  · rw [ht]; exact orElseStr_of_falsy _ _ htask
  · rw [hm]; exact orElseStr_of_falsy _ _ hmode
  · rw [hs]; exact orElseStr_of_falsy _ _ hsum
  · rw [hgat]; exact orElseStr_of_falsy _ _ hgen
  · rw [hgat2, hkept]; exact orElseStr_of_truthy g now hg

/-- C4 witness: an all-missing plan is filled from request/context/clock,
and a plan with `generatedAt := "kept"` keeps it. -/
theorem canonicalise_missing_fields_witness :
    ({ task := "rt", mode := "rm", summary := "cs", generatedAt := "N"
       phases := [createSinglePhase []], rawPlan := none } : PlanResult).task = "rt"
    ∧ ({ task := "rt", mode := "rm", summary := "cs", generatedAt := "N"
         phases := [createSinglePhase []], rawPlan := none } : PlanResult).mode = "rm"
    ∧ ({ task := "rt", mode := "rm", summary := "cs", generatedAt := "N"
         phases := [createSinglePhase []], rawPlan := none } : PlanResult).summary = "cs"
    ∧ ({ task := "rt", mode := "rm", summary := "cs", generatedAt := "N"
         phases := [createSinglePhase []], rawPlan := none } : PlanResult).generatedAt = "N"
    ∧ ({ task := "rt", mode := "rm", summary := "cs", generatedAt := "kept"
         phases := [createSinglePhase []], rawPlan := none } : PlanResult).generatedAt = "kept" :=
  canonicalise_missing_fields (fun _ => none) (fun _ => "u") "N"
    { task := "rt", mode := "rm", hints := none }
    { rootPath := "/r", files := [], techStack := [], summary := "cs" }
    {} { generatedAt := some "kept" } "kept"
    { task := "rt", mode := "rm", summary := "cs", generatedAt := "N"
      phases := [createSinglePhase []], rawPlan := none }
    { task := "rt", mode := "rm", summary := "cs", generatedAt := "kept"
      phases := [createSinglePhase []], rawPlan := none }
    (by decide) (by decide) (by decide) (by decide) (by decide) rfl (by decide) (by decide)

/-- Two prompts built over the same request, context and file list are equal
exactly when their embedded clock values are equal. -/
theorem buildPlanPrompt_eq_iff (request : PlanRequest) (context : ProjectContext)
    (files : List ScannedFile) (n1 n2 : String) :
    buildPlanPrompt request context files n1 = buildPlanPrompt request context files n2
      ↔ n1 = n2 := by
  constructor
  · intro h
    unfold buildPlanPrompt at h
    have hd := congrArg String.data h
    have hsplit : ∀ (a b c : String), (a ++ b ++ c).data = a.data ++ b.data ++ c.data := by
      intro a b c
      rfl
    rw [hsplit, hsplit] at hd
    have h1 := List.append_cancel_right hd
    have h2 := List.append_cancel_left h1
    cases n1
    cases n2
    exact congrArg String.mk h2
  · intro h
    rw [h]

/-- C8 counterexample: two invocations of the prompt builder over identical
request/context/file inputs but different clock readings produce different
prompt strings — the builder is not a pure function of the
(request, context) pair alone. -/
theorem buildPlanPrompt_clock_counterexample :
    buildPlanPrompt { task := "t", mode := "plan", hints := none }
        { rootPath := "/r", files := [], techStack := [], summary := "s" } [] "T1"
      ≠ buildPlanPrompt { task := "t", mode := "plan", hints := none }
        { rootPath := "/r", files := [], techStack := [], summary := "s" } [] "T2" := by
  intro h
  have := (buildPlanPrompt_eq_iff _ _ _ "T1" "T2").mp h
  exact absurd this (by decide)

/-- C8 (amended).  The prompt builder is a deterministic pure function of
its inputs and the invocation-time clock: the prompt factors into a
clock-independent head determined by the request/context/files, the clock
value (embedded as the `generatedAt` example), and a constant tail; two
invocations over fixed inputs produce the identical string exactly when
their clock readings agree. -/
theorem buildPlanPrompt_deterministic (request : PlanRequest) (context : ProjectContext)
    (files : List ScannedFile) (n1 n2 : String) :
    buildPlanPrompt request context files n1
        = promptBeforeTime request context files ++ n1 ++ promptAfterTime
    ∧ (buildPlanPrompt request context files n1 = buildPlanPrompt request context files n2
        ↔ n1 = n2) :=
  ⟨rfl, buildPlanPrompt_eq_iff request context files n1 n2⟩

/-- C9 counterexample: a plan normalised with `mode = "phase"` and no source
`rawText` gets a markdown rendering that nowhere contains the mode string —
the heading carries the task only, contradicting "the heading carries the
task, mode, and summary". -/
theorem rawText_heading_counterexample :
    (generatePlanRun (fun _ => none) (fun _ => "u") "N"
      (Sum.inl { task := some "Do X", mode := some "phase", summary := some "Sum",
                 generatedAt := some "G",
                 phases := JsArrayVal.array
                   [JsPhaseVal.obj
                     { id := some "p1", title := some "T1", summary := some "PS",
                       steps := JsArrayVal.array
                         [JsStepVal.obj
                           { id := some "s1", title := some "ST", description := some "D",
                             references := some [], reasoning := none,
                             estimatedEffort := none }] }],
                 rawPlan := none })
      { task := "rq", mode := "phase", hints := none }
      { rootPath := "/r", files := [], techStack := [], summary := "cs" }).map
        PlanResult.mode = Except.ok "phase"
    ∧ (generatePlanRun (fun _ => none) (fun _ => "u") "N"
      (Sum.inl { task := some "Do X", mode := some "phase", summary := some "Sum",
                 generatedAt := some "G",
                 phases := JsArrayVal.array
                   [JsPhaseVal.obj
                     { id := some "p1", title := some "T1", summary := some "PS",
                       steps := JsArrayVal.array
                         [JsStepVal.obj
                           { id := some "s1", title := some "ST", description := some "D",
                             references := some [], reasoning := none,
                             estimatedEffort := none }] }],
                 rawPlan := none })
      { task := "rq", mode := "phase", hints := none }
      { rootPath := "/r", files := [], techStack := [], summary := "cs" }).map
        PlanResult.rawPlan
        = Except.ok
          (some "# Implementation Plan: Do X\n\n## Overview\nSum\n\n## T1\nPS\n\n### ST\nD\n\n")
    ∧ hasSub ("phase".toList)
        ("# Implementation Plan: Do X\n\n## Overview\nSum\n\n## T1\nPS\n\n### ST\nD\n\n".toList)
        = false := by
  decide

/-- C9 (amended).  Every `PlanDocument` returned by `generatePlan` has
`rawText` defined: whatever document the run returns carries
`rawPlan = some (plan.rawPlan ?? toMarkdown plan)` of the normalised
document — a heading carrying the task, an Overview section with the
summary when the summary is non-empty, one `##` section per phase with its
title and summary, and one (unnumbered) `###` sub-section per step with its
description, a References list when references are non-empty and a
Reasoning line when reasoning is present; the mode does not appear. -/
theorem generatePlan_rawText (parse : String → Option JsValue) (uuid : List Nat → String)
    (now : String) (response : RawPlan ⊕ String) (request : PlanRequest)
    (context : ProjectContext) (plan out : PlanResult)
    (hnorm : normalisePlan parse uuid now response request context = Except.ok plan)
    (hrun : generatePlanRun parse uuid now response request context = Except.ok out) :
    out.rawPlan.isSome = true
    ∧ out.rawPlan = some (plan.rawPlan.getD (toMarkdown plan)) := by
  have hval : generatePlanRun parse uuid now response request context
      = Except.ok { plan with rawPlan := some (plan.rawPlan.getD (toMarkdown plan)) } := by
    unfold generatePlanRun
    rw [hnorm]
    rfl
  rw [hval] at hrun
  injection hrun with hout
  rw [← hout]
  exact ⟨rfl, rfl⟩

set_option maxRecDepth 8000 in
/-- C9 witness: a garbage backend response yields the fallback document,
whose `rawText` is its markdown rendering. -/
theorem generatePlan_rawText_witness :
    ({ createFallbackPlan "N" { task := "t", mode := "plan", hints := none }
        { rootPath := "/r", files := [], techStack := [], summary := "cs" } with
      rawPlan := some ((createFallbackPlan "N" { task := "t", mode := "plan", hints := none }
          { rootPath := "/r", files := [], techStack := [], summary := "cs" }).rawPlan.getD
        (toMarkdown (createFallbackPlan "N" { task := "t", mode := "plan", hints := none }
          { rootPath := "/r", files := [], techStack := [], summary := "cs" }))) }
      : PlanResult).rawPlan.isSome = true
    ∧ ({ createFallbackPlan "N" { task := "t", mode := "plan", hints := none }
          { rootPath := "/r", files := [], techStack := [], summary := "cs" } with
        rawPlan := some ((createFallbackPlan "N" { task := "t", mode := "plan", hints := none }
            { rootPath := "/r", files := [], techStack := [], summary := "cs" }).rawPlan.getD
          (toMarkdown (createFallbackPlan "N" { task := "t", mode := "plan", hints := none }
            { rootPath := "/r", files := [], techStack := [], summary := "cs" }))) }
        : PlanResult).rawPlan
      = some ((createFallbackPlan "N" { task := "t", mode := "plan", hints := none }
          { rootPath := "/r", files := [], techStack := [], summary := "cs" }).rawPlan.getD
        (toMarkdown (createFallbackPlan "N" { task := "t", mode := "plan", hints := none }
          { rootPath := "/r", files := [], techStack := [], summary := "cs" }))) :=
  generatePlan_rawText (fun _ => none) (fun _ => "u") "N" (Sum.inr "garbage")
    { task := "t", mode := "plan", hints := none }
    { rootPath := "/r", files := [], techStack := [], summary := "cs" }
    (createFallbackPlan "N" { task := "t", mode := "plan", hints := none }
      { rootPath := "/r", files := [], techStack := [], summary := "cs" })
    { createFallbackPlan "N" { task := "t", mode := "plan", hints := none }
        { rootPath := "/r", files := [], techStack := [], summary := "cs" } with
      rawPlan := some ((createFallbackPlan "N" { task := "t", mode := "plan", hints := none }
          { rootPath := "/r", files := [], techStack := [], summary := "cs" }).rawPlan.getD
        (toMarkdown (createFallbackPlan "N" { task := "t", mode := "plan", hints := none }
          { rootPath := "/r", files := [], techStack := [], summary := "cs" }))) }
    (by decide) (by decide)

/-! ## Fence-stripping lemmas (towards C3) -/

theorem isPrefixOf_append_self (p rest : List Char) : p.isPrefixOf (p ++ rest) = true := by
  induction p with
  | nil => cases rest <;> rfl
  | cons c p ih =>
    show (c == c && p.isPrefixOf (p ++ rest)) = true
    simp [ih]

theorem hasSub_append_self (p rest : List Char) : hasSub p (p ++ rest) = true := by
  cases p with
  | nil =>
    cases rest with
    | nil => rfl
    | cons c r => simp [hasSub, List.isPrefixOf]
  | cons c p' =>
    show hasSub (c :: p') (c :: (p' ++ rest)) = true
    unfold hasSub
    rw [show c :: (p' ++ rest) = (c :: p') ++ rest from rfl, isPrefixOf_append_self]
    rfl

theorem afterFirst_append_self (p rest : List Char) : afterFirst p (p ++ rest) = some rest := by
  cases p with
  | nil =>
    cases rest with
    | nil => rfl
    | cons c r => simp [afterFirst, List.isPrefixOf]
  | cons c p' =>
    show afterFirst (c :: p') (c :: (p' ++ rest)) = some rest
    unfold afterFirst
    rw [show c :: (p' ++ rest) = (c :: p') ++ rest from rfl, isPrefixOf_append_self]
    simp [List.drop_left]

theorem isPrefixOf_cons_of_ne (h : Char) (t : List Char) (c : Char) (l : List Char)
    (hc : c ≠ h) : (h :: t).isPrefixOf (c :: l) = false := by
  show (h == c && t.isPrefixOf l) = false
  have : (h == c) = false := by
    simp [Ne.symm hc]
  simp [this]

theorem hasSub_false_of_head_notMem (h : Char) (t l : List Char) (hl : ∀ c ∈ l, c ≠ h) :
    hasSub (h :: t) l = false := by
  induction l with
  | nil => rfl
  | cons c l ih =>
    have hc : c ≠ h := hl c (List.mem_cons_self c l)
    unfold hasSub
    rw [isPrefixOf_cons_of_ne h t c l hc, ih fun x hx => hl x (List.mem_cons_of_mem c hx)]
    rfl

theorem beforeFirst_append_pattern (h : Char) (t xs ys : List Char)
    (hxs : ∀ c ∈ xs, c ≠ h) :
    beforeFirst (h :: t) (xs ++ ((h :: t) ++ ys)) = xs := by
  induction xs with
  | nil =>
    show beforeFirst (h :: t) (h :: (t ++ ys)) = []
    unfold beforeFirst
    rw [show h :: (t ++ ys) = (h :: t) ++ ys from rfl, isPrefixOf_append_self]
    rfl
  | cons c xs ih =>
    show beforeFirst (h :: t) (c :: (xs ++ ((h :: t) ++ ys))) = c :: xs
    unfold beforeFirst
    rw [isPrefixOf_cons_of_ne h t c _ (hxs c (List.mem_cons_self c xs)), if_neg (by simp)]
    exact congrArg (c :: ·) (ih fun x hx => hxs x (List.mem_cons_of_mem c hx))

theorem dropWhile_isSuffix (p : Char → Bool) : ∀ (l : List Char), (l.dropWhile p).IsSuffix l
  | [] => List.suffix_refl []
  | c :: l => by
    rw [List.dropWhile_cons]
    split
    · exact (dropWhile_isSuffix p l).trans (List.suffix_cons c l)
    · exact List.suffix_refl _

theorem trim_eq_self_dropWhile (l : List Char) (h : trimChars l = l) :
    l.dropWhile jsWs = l := by
  have h1 : (l.dropWhile jsWs).length ≤ l.length :=
    ((dropWhile_isSuffix jsWs l).sublist).length_le
  have h2 : ((l.dropWhile jsWs).reverse.dropWhile jsWs).length ≤ (l.dropWhile jsWs).length := by
    have := ((dropWhile_isSuffix jsWs (l.dropWhile jsWs).reverse).sublist).length_le
    simpa using this
  have h3 : ((l.dropWhile jsWs).reverse.dropWhile jsWs).length = l.length := by
    have := congrArg List.length h
    simpa [trimChars] using this
  exact ((dropWhile_isSuffix jsWs l).sublist).eq_of_length (by omega)

theorem trim_eq_self_dropWhile_rev (l : List Char) (h : trimChars l = l) :
    l.reverse.dropWhile jsWs = l.reverse := by
  have hfst := trim_eq_self_dropWhile l h
  have h' : (l.reverse.dropWhile jsWs).reverse = l := by
    have hx : trimChars l = (l.reverse.dropWhile jsWs).reverse := by
      rw [trimChars, hfst]
    rw [← hx, h]
  have := congrArg List.reverse h'
  simpa using this

theorem head_not_ws_of_dropWhile_eq (b : Char) (bs : List Char)
    (h : (b :: bs).dropWhile jsWs = b :: bs) : jsWs b = false := by
  by_contra hb
  have hb' : jsWs b = true := by
    revert hb
    cases jsWs b <;> simp
  rw [List.dropWhile_cons, if_pos hb'] at h
  have := ((dropWhile_isSuffix jsWs bs).sublist).length_le
  rw [h] at this
  simp at this

theorem trimChars_wrap (body : List Char) (ht : trimChars body = body) :
    trimChars ('\n' :: (body ++ ['\n'])) = body := by
  cases body with
  | nil => rfl
  | cons b bs =>
    have h1 : (b :: bs).dropWhile jsWs = b :: bs := trim_eq_self_dropWhile _ ht
    have hb : jsWs b = false := head_not_ws_of_dropWhile_eq b bs h1
    have h2 : (b :: bs).reverse.dropWhile jsWs = (b :: bs).reverse :=
      trim_eq_self_dropWhile_rev _ ht
    show ((('\n' :: ((b :: bs) ++ ['\n'])).dropWhile jsWs).reverse.dropWhile jsWs).reverse
      = b :: bs
    rw [List.dropWhile_cons, if_pos (by decide : jsWs '\n' = true),
      List.cons_append, List.dropWhile_cons, if_neg (by simp [hb])]
    have hrev : (b :: (bs ++ ['\n'])).reverse = '\n' :: (b :: bs).reverse := by
      simp
    rw [hrev, List.dropWhile_cons, if_pos (by decide : jsWs '\n' = true), h2]
    exact List.reverse_reverse _

theorem stripFences_fenced (body : List Char) (hb : ∀ c ∈ body, c ≠ btick)
    (ht : trimChars body = body) :
    stripFences (fenceJson ++ ('\n' :: (body ++ ('\n' :: fence3)))) = body := by
  have h1 : hasSub fenceJson (fenceJson ++ ('\n' :: (body ++ ('\n' :: fence3)))) = true :=
    hasSub_append_self _ _
  have h2 : afterFirst fenceJson (fenceJson ++ ('\n' :: (body ++ ('\n' :: fence3))))
      = some ('\n' :: (body ++ ('\n' :: fence3))) :=
    afterFirst_append_self _ _
  have hxs : ∀ c ∈ '\n' :: (body ++ ['\n']), c ≠ btick := by
    intro c hc
    rcases List.mem_cons.mp hc with hc | hc
    · rw [hc]; decide
    · rcases List.mem_append.mp hc with hc | hc
      · exact hb c hc
      · rw [List.mem_singleton.mp hc]; decide
  have hshape : '\n' :: (body ++ ('\n' :: fence3))
      = ('\n' :: (body ++ ['\n'])) ++ (fence3 ++ []) := by
    simp
  have h3 : beforeFirst fence3 (('\n' :: (body ++ ['\n'])) ++ (fence3 ++ []))
      = '\n' :: (body ++ ['\n']) :=
    beforeFirst_append_pattern btick [btick, btick] ('\n' :: (body ++ ['\n'])) [] hxs
  simp only [stripFences, h1, h2, if_true]
  rw [hshape, h3]
  exact trimChars_wrap body ht

theorem stripFences_bare (body : List Char) (hb : ∀ c ∈ body, c ≠ btick) :
    stripFences body = body := by
  have h1 : hasSub fenceJson body = false :=
    hasSub_false_of_head_notMem btick [btick, btick, 'j', 's', 'o', 'n'] body hb
  have h2 : hasSub fence3 body = false :=
    hasSub_false_of_head_notMem btick [btick, btick] body hb
  simp [stripFences, h1, h2]

/-- C3.  The fence-stripping stage applied to backend text before JSON
parsing (trying the JSON-tagged fence before an untagged one) maps a plan
body wrapped in a single pair of surrounding code fences back to the bare
body, leaves the bare body unchanged, and consequently the fenced and the
bare backend responses normalise to the identical `PlanDocument`, for any
body that contains no backtick and is already trimmed. -/
theorem fence_strip_normalise_equiv (parse : String → Option JsValue)
    (uuid : List Nat → String) (now : String) (request : PlanRequest)
    (context : ProjectContext) (body : List Char)
    (hb : ∀ c ∈ body, c ≠ btick) (ht : trimChars body = body) :
    stripFences (fenceJson ++ ('\n' :: (body ++ ('\n' :: fence3)))) = body
    ∧ stripFences body = body
    ∧ normalisePlan parse uuid now
        (Sum.inr (String.mk (stripFences (fenceJson ++ ('\n' :: (body ++ ('\n' :: fence3)))))))
        request context
      = normalisePlan parse uuid now (Sum.inr (String.mk (stripFences body))) request context := by
  have hf := stripFences_fenced body hb ht
  have hbr := stripFences_bare body hb
  exact ⟨hf, hbr, by rw [hf, hbr]⟩

/-- C3 witness: the concrete plan body `\x7b"phases":[]\x7d`, fenced and
bare, strips to the same text and normalises identically. -/
theorem fence_strip_normalise_equiv_witness :
    stripFences (fenceJson ++ ('\n' :: ("\x7b\"phases\":[]\x7d".toList ++ ('\n' :: fence3))))
        = "\x7b\"phases\":[]\x7d".toList
    ∧ stripFences ("\x7b\"phases\":[]\x7d".toList) = "\x7b\"phases\":[]\x7d".toList
    ∧ normalisePlan (fun _ => none) (fun _ => "u") "N"
        (Sum.inr (String.mk (stripFences
          (fenceJson ++ ('\n' :: ("\x7b\"phases\":[]\x7d".toList ++ ('\n' :: fence3)))))))
        { task := "t", mode := "plan", hints := none }
        { rootPath := "/r", files := [], techStack := [], summary := "cs" }
      = normalisePlan (fun _ => none) (fun _ => "u") "N"
        (Sum.inr (String.mk (stripFences ("\x7b\"phases\":[]\x7d".toList))))
        { task := "t", mode := "plan", hints := none }
        { rootPath := "/r", files := [], techStack := [], summary := "cs" } :=
  fence_strip_normalise_equiv _ _ _ _ _ _ (by decide) (by decide)

/-- C7.  On a modification request (edit-verb and plan-noun matched, a
current plan present), when the backend call fails — which is where a
response that is not valid JSON surfaces, since `sendMessage` validates and
throws — the error propagates to `handleChatMessage` and is surfaced as a
single `❌ Error:` chat message; no fallback synthesis runs, the
conversation history is preserved (user message and error appended), and
the current-plan slot is left untouched. -/
theorem modification_failure_preserves_plan (env : ChatEnv) (st : SidebarState)
    (userMessage : String) (mode : Option String) (p : RawPlan)
    (currentPhs : List JsPhaseVal) (lines : List String)
    (ctx : ProjectContext) (e : String)
    (hne : ¬ String.mk (trimChars userMessage.data) = "")
    (hmod : isModificationMsg userMessage = true)
    (hplan : st.currentPlan = some p)
    (hphs : p.phases = JsArrayVal.array currentPhs)
    (hlines : modPhaseLinesJs 0 currentPhs = Except.ok lines)
    (hctx : st.projectContext = some ctx)
    (hfail : env.sendMessage (modificationPrompt p lines
        (st.conversationHistory ++ [userChatMessage env.now userMessage])
        userMessage) = Except.error e) :
    handleChatMessage env st userMessage mode
      = { st with conversationHistory := st.conversationHistory ++
          [userChatMessage env.now userMessage, errorChatMessage env.now e] }
    ∧ (handleChatMessage env st userMessage mode).currentPlan = st.currentPlan := by
  have hscrut : (if isModificationMsg userMessage then
      (pushMessage st (userChatMessage env.now userMessage)).currentPlan else none) = some p := by
    rw [hmod, if_pos rfl]
    simpa [pushMessage] using hplan
  have hmodify : modifyPlan env (pushMessage st (userChatMessage env.now userMessage)) p userMessage
      = (pushMessage st (userChatMessage env.now userMessage), Except.error e) := by
    unfold modifyPlan
    rw [hphs]
    show (match modPhaseLinesJs 0 currentPhs with
      | Except.error e' => (pushMessage st (userChatMessage env.now userMessage), Except.error e')
      | Except.ok lines' =>
        match env.sendMessage (modificationPrompt p lines'
            (pushMessage st (userChatMessage env.now userMessage)).conversationHistory
            userMessage) with
        | Except.error e' => (pushMessage st (userChatMessage env.now userMessage), Except.error e')
        | Except.ok llmResponse =>
          match env.parse llmResponse with
          | none =>
            (pushMessage st (userChatMessage env.now userMessage), Except.error jsonSyntaxError)
          | some (JsValue.object updated) =>
            match updated.phases with
            | JsArrayVal.array phs =>
              ({ pushMessage st (userChatMessage env.now userMessage) with
                  currentPlan := some updated },
               (modifySuccessText updated phs).map fun text => (text, updated))
            | JsArrayVal.nullish =>
              ({ pushMessage st (userChatMessage env.now userMessage) with
                  currentPlan := some updated },
               Except.error "Cannot read properties of undefined (reading 'length')")
            | JsArrayVal.falsyScalar _ =>
              ({ pushMessage st (userChatMessage env.now userMessage) with
                  currentPlan := some updated },
               Except.error "updatedPlan.phases.map is not a function")
            | JsArrayVal.nonArray _ =>
              ({ pushMessage st (userChatMessage env.now userMessage) with
                  currentPlan := some updated },
               Except.error "updatedPlan.phases.map is not a function")
          | some JsValue.scalar =>
            ({ pushMessage st (userChatMessage env.now userMessage) with currentPlan := some {} },
             Except.error "Cannot read properties of undefined (reading 'length')")
          | some JsValue.null =>
            ({ pushMessage st (userChatMessage env.now userMessage) with currentPlan := none },
             Except.error "Cannot read properties of null (reading 'phases')"))
      = (pushMessage st (userChatMessage env.now userMessage), Except.error e)
    rw [hlines,
      show (pushMessage st (userChatMessage env.now userMessage)).conversationHistory
        = st.conversationHistory ++ [userChatMessage env.now userMessage] from rfl]
    dsimp only
    rw [hfail]
  have hresp : generateResponse env (pushMessage st (userChatMessage env.now userMessage)) ctx
      userMessage (orElseStr mode "phase")
      = (pushMessage st (userChatMessage env.now userMessage), Except.error e) := by
    unfold generateResponse
    rw [hscrut]
    show ((modifyPlan env (pushMessage st (userChatMessage env.now userMessage)) p userMessage).1,
        Except.map (fun tp => (tp.1, some tp.2))
          (modifyPlan env (pushMessage st (userChatMessage env.now userMessage)) p userMessage).2)
      = (pushMessage st (userChatMessage env.now userMessage), Except.error e)
    rw [hmodify]
    rfl
  have hmain : handleChatMessage env st userMessage mode
      = { st with conversationHistory := st.conversationHistory ++
          [userChatMessage env.now userMessage, errorChatMessage env.now e] } := by
    unfold handleChatMessage
    rw [if_neg hne]
    conv_lhs => rw [hctx]
    show runGenerated env (generateResponse env
        (pushMessage st (userChatMessage env.now userMessage)) ctx
        userMessage (orElseStr mode "phase"))
      = { st with conversationHistory := st.conversationHistory ++
          [userChatMessage env.now userMessage, errorChatMessage env.now e] }
    rw [hresp]
    simp [runGenerated, pushMessage]
  exact ⟨hmain, by rw [hmain]⟩

/-- C7 witness: a concrete session whose backend throws on the modification
prompt keeps its current plan and surfaces the error message. -/
theorem modification_failure_preserves_plan_witness :
    handleChatMessage
      { analyzeWorkspace := Except.error "unused"
        sendMessage := fun _ => Except.error "Gemini response is not valid JSON"
        sendConversational := fun _ => Except.ok "unused"
        parse := fun _ => none
        uuid := fun _ => "u"
        now := "N"
        config := { provider := LLMProvider.mock, apiKey := none }
        gemini := Except.error "unused" }
      { conversationHistory := []
        currentPlan := some { task := some "T", phases := JsArrayVal.array [] }
        projectContext := some { rootPath := "/r", files := [], techStack := [], summary := "cs" } }
      "update the plan" none
      = { conversationHistory :=
            [userChatMessage "N" "update the plan",
             errorChatMessage "N" "Gemini response is not valid JSON"]
          currentPlan := some { task := some "T", phases := JsArrayVal.array [] }
          projectContext := some { rootPath := "/r", files := [], techStack := [], summary := "cs" } }
    ∧ (handleChatMessage
      { analyzeWorkspace := Except.error "unused"
        sendMessage := fun _ => Except.error "Gemini response is not valid JSON"
        sendConversational := fun _ => Except.ok "unused"
        parse := fun _ => none
        uuid := fun _ => "u"
        now := "N"
        config := { provider := LLMProvider.mock, apiKey := none }
        gemini := Except.error "unused" }
      { conversationHistory := []
        currentPlan := some { task := some "T", phases := JsArrayVal.array [] }
        projectContext := some { rootPath := "/r", files := [], techStack := [], summary := "cs" } }
      "update the plan" none).currentPlan
        = some { task := some "T", phases := JsArrayVal.array [] } := by
  have h := modification_failure_preserves_plan
    { analyzeWorkspace := Except.error "unused"
      sendMessage := fun _ => Except.error "Gemini response is not valid JSON"
      sendConversational := fun _ => Except.ok "unused"
      parse := fun _ => none
      uuid := fun _ => "u"
      now := "N"
      config := { provider := LLMProvider.mock, apiKey := none }
      gemini := Except.error "unused" }
    { conversationHistory := []
      currentPlan := some { task := some "T", phases := JsArrayVal.array [] }
      projectContext := some { rootPath := "/r", files := [], techStack := [], summary := "cs" } }
    "update the plan" none { task := some "T", phases := JsArrayVal.array [] } [] []
    { rootPath := "/r", files := [], techStack := [], summary := "cs" }
    "Gemini response is not valid JSON"
    (by decide) (by decide) rfl rfl rfl rfl rfl
  exact ⟨h.1, by rw [h.1]⟩

end TraycerLite
